import Mathlib

set_option maxRecDepth 8192

/-!
Verification development for the CloudDrop repository: a shallow embedding of
the room server (`src/room.ts`) and of the password / trust / file-request
logic of the client (`public/js/app.js`), with theorems checking the
natural-language specification against the code.

JavaScript `Map` objects are embedded as association lists with `Map.set`
semantics (update-in-place keeps the insertion position, otherwise append) and
`Map.delete` as a filter.  JavaScript falsiness of strings (`""` and
`undefined`/`null` are falsy) is modelled explicitly wherever the source
tests a string with `!x` or `x || default`.
-/

namespace CloudDrop

/-- JavaScript `Map.prototype.set`: update an existing key in place, else append. -/
def mapSet {α : Type} (l : List (String × α)) (k : String) (v : α) : List (String × α) :=
  if l.any (fun p => p.1 = k) then l.map (fun p => if p.1 = k then (k, v) else p)
  else l ++ [(k, v)]

/-- JavaScript `Map.prototype.get`: first entry with the key. -/
def mapGet {α : Type} (l : List (String × α)) (k : String) : Option α :=
  (l.find? (fun p => p.1 = k)).map (fun p => p.2)

namespace Server

/-- Message types of `SignalingMessage` in `room.ts`. -/
inductive MsgType
  | join | leave | offer | answer | iceCandidate | peers | text
  | peerJoined | peerLeft | relayData | nameChanged | keyExchange
  | fileRequest | fileResponse | fileCancel
deriving DecidableEq, Repr

/-- Shape of a JSON object appearing as the `data` field of a signaling
message: the fields read by the server's casts, plus an opaque payload that
distinguishes values the server only forwards.  A missing field is `none`
(JavaScript `undefined`). -/
structure DataObj where
  name : Option String := Option.none
  deviceType : Option String := Option.none
  browserInfo : Option String := Option.none
  payload : Option String := Option.none
deriving DecidableEq, Repr

/-- An incoming `SignalingMessage` (the server ignores the incoming `from`). -/
structure SignalingMessage where
  type : MsgType
  toPeer : Option String := Option.none
  data : Option DataObj := Option.none
deriving DecidableEq, Repr

/-- `PeerAttachment` stored with a WebSocket.  `name` is an `Option` because a
`name-changed` message whose data lacks a `name` field stores `undefined`. -/
structure PeerAttachment where
  id : String
  name : Option String
  deviceType : String
  browserInfo : Option String
deriving DecidableEq, Repr

/-- One WebSocket known to the room (an element of `state.getWebSockets()`),
with its numeric identity, its tag (the room code), its `readyState`
(`true` = `WebSocket.OPEN`) and its attachment. -/
structure Conn where
  wsId : Nat
  tag : String
  readyState : Bool
  attachment : Option PeerAttachment
deriving DecidableEq, Repr

/-- The room's state: the Durable Object's sockets, the stored password hash
(`null` = no password), and the set-password requests currently suspended at
`await request.json()` — the handler has passed the method and already-set
checks but has not yet validated and stored its body.  These continuations
are genuine room state: the constructor takes no lock (`blockConcurrencyWhile`
is used only for the initial load), so other operations run during the
suspension. -/
structure RoomState where
  conns : List Conn
  passwordHash : Option String
  pendingSetPw : List Nat
deriving DecidableEq, Repr

/-- One entry of the `peers` array of a `joined` reply. -/
structure PeerInfo where
  id : String
  name : Option String
  deviceType : String
  browserInfo : Option String
deriving DecidableEq, Repr

/-- Outgoing messages the room serializes onto sockets. -/
inductive OutMsg
  | forwarded (t : MsgType) (fromId : String) (data : Option DataObj)
  | joined (peerId : String) (roomCode : String) (peersList : List PeerInfo)
  | peerJoined (id : String) (name : Option String) (deviceType : String)
      (browserInfo : Option String)
  | peerLeft (id : String)
  | nameChanged (fromId : String) (name : Option String)
deriving DecidableEq, Repr

/-- One `ws.send(...)`: destination socket and serialized message. -/
structure Send where
  dest : Nat
  msg : OutMsg
deriving DecidableEq, Repr

/-- The peer id a connection contributes to `getActivePeers`: its attachment's
id when present and non-empty (the source checks `attachment && attachment.id`,
where the empty string is falsy). -/
def entryId (c : Conn) : Option String :=
  match c.attachment with
  | Option.some a => if a.id = "" then Option.none else Option.some a.id
  | Option.none => Option.none

/-- The ids contributed by a list of connections, in socket order. -/
def activeIds (conns : List Conn) : List String :=
  conns.filterMap entryId

/-- One step of the fold inside `getActivePeers`. -/
def activeStep (acc : List (String × Conn × PeerAttachment)) (c : Conn) :
    List (String × Conn × PeerAttachment) :=
  match c.attachment with
  | Option.some a => if a.id = "" then acc else mapSet acc a.id (c, a)
  | Option.none => acc

/-- `getActivePeers`: builds a `Map` from peer id to socket and attachment by
iterating over `state.getWebSockets()`. -/
def getActivePeers (conns : List Conn) : List (String × Conn × PeerAttachment) :=
  conns.foldl activeStep []

/-- `getPeerIdFromWs`: the attachment's id, if any. -/
def getPeerIdFromWs (c : Conn) : Option String :=
  c.attachment.map (fun a => a.id)

/-- The full entry a connection contributes to the active-peers map. -/
def entryOf (c : Conn) : Option (String × Conn × PeerAttachment) :=
  match c.attachment with
  | Option.some a => if a.id = "" then Option.none else Option.some (a.id, c, a)
  | Option.none => Option.none

/-- The send a broadcast of `m` produces for one connection: delivered when
the connection is an active peer, its id differs from the excluded one, and
its socket is open. -/
def openSendTo (m : OutMsg) (exclude : Option String) (c : Conn) : Option Send :=
  match entryId c with
  | Option.some i =>
    if Option.some i ≠ exclude ∧ c.readyState = true then Option.some ⟨c.wsId, m⟩
    else Option.none
  | Option.none => Option.none

/-- `broadcast`: send `m` to every active peer whose id differs from the
excluded one (no exclusion when `exclude = none`, matching the optional
`excludePeerId` parameter) and whose socket is `OPEN`. -/
def broadcastSends (conns : List Conn) (m : OutMsg) (exclude : Option String) :
    List Send :=
  (getActivePeers conns).filterMap (fun e =>
    if Option.some e.1 ≠ exclude ∧ e.2.1.readyState = true then
      Option.some ⟨e.2.1.wsId, m⟩
    else Option.none)

/-- Common body of the five point-to-point forwarding handlers
(`handleSignaling`, `handleText`, `handleRelayData`, `handleKeyExchange`,
`handleFileSignaling`): drop when `to` is falsy, drop when the sender has no
(non-empty) attachment id, otherwise look the target up among the active
peers and send `{type, from, data}` when its socket is `OPEN`. -/
def forwardCore (conns : List Conn) (sender : Conn) (toField : Option String)
    (t : MsgType) (d : Option DataObj) : List Send :=
  match toField with
  | Option.none => []
  | Option.some tgt =>
    if tgt = "" then []
    else
      match sender.attachment with
      | Option.none => []
      | Option.some a =>
        if a.id = "" then []
        else
          match mapGet (getActivePeers conns) tgt with
          | Option.some e =>
            if e.1.readyState = true then [⟨e.1.wsId, OutMsg.forwarded t a.id d⟩]
            else []
          | Option.none => []

/-- `handleSignaling` (offer / answer / ice-candidate). -/
def handleSignaling (conns : List Conn) (sender : Conn) (msg : SignalingMessage) :
    List Send :=
  forwardCore conns sender msg.toPeer msg.type msg.data

/-- `handleText`. -/
def handleText (conns : List Conn) (sender : Conn) (msg : SignalingMessage) :
    List Send :=
  forwardCore conns sender msg.toPeer MsgType.text msg.data

/-- `handleRelayData`. -/
def handleRelayData (conns : List Conn) (sender : Conn) (msg : SignalingMessage) :
    List Send :=
  forwardCore conns sender msg.toPeer MsgType.relayData msg.data

/-- `handleKeyExchange`. -/
def handleKeyExchange (conns : List Conn) (sender : Conn) (msg : SignalingMessage) :
    List Send :=
  forwardCore conns sender msg.toPeer MsgType.keyExchange msg.data

/-- `handleFileSignaling` (file-request / file-response / file-cancel). -/
def handleFileSignaling (conns : List Conn) (sender : Conn)
    (msg : SignalingMessage) : List Send :=
  forwardCore conns sender msg.toPeer msg.type msg.data

/-- The display name a join stores: `joinData.name || generateName()`, where a
missing or empty name falls back to the generated one. -/
def joinName (d : Option DataObj) (genName : String) : String :=
  match d.bind (fun o => o.name) with
  | Option.some n => if n = "" then genName else n
  | Option.none => genName

/-- The device type a join stores: `joinData.deviceType || 'desktop'`. -/
def joinDeviceType (d : Option DataObj) : String :=
  match d.bind (fun o => o.deviceType) with
  | Option.some n => if n = "" then "desktop" else n
  | Option.none => "desktop"

/-- Replace the attachment of the socket with the given `wsId`. -/
def setAttachment (conns : List Conn) (wsId : Nat) (a : PeerAttachment) :
    List Conn :=
  conns.map (fun c => if c.wsId = wsId then { c with attachment := Option.some a } else c)

/-- `handleJoin`: store the fresh peer id in the sender's attachment, reply
with `joined` (peers = all active peers except the new id) and broadcast
`peer-joined` excluding the new id.  `freshId` stands for `crypto.randomUUID()`
and `genName` for `generateName()`; the ping/pong auto-response is transport
level and not modelled. -/
def handleJoin (st : RoomState) (sender : Conn) (msg : SignalingMessage)
    (freshId genName : String) : RoomState × List Send :=
  let att : PeerAttachment :=
    { id := freshId
      name := Option.some (joinName msg.data genName)
      deviceType := joinDeviceType msg.data
      browserInfo := msg.data.bind (fun o => o.browserInfo) }
  let conns' := setAttachment st.conns sender.wsId att
  let otherPeers : List PeerInfo :=
    ((getActivePeers conns').filter (fun e => e.1 ≠ freshId)).map
      (fun e => ⟨e.1, e.2.2.name, e.2.2.deviceType, e.2.2.browserInfo⟩)
  ({ st with conns := conns' },
    ⟨sender.wsId, OutMsg.joined freshId sender.tag otherPeers⟩ ::
      broadcastSends conns'
        (OutMsg.peerJoined freshId att.name att.deviceType att.browserInfo)
        (Option.some freshId))

/-- `handleLeave` (called from the close and error handlers): if the socket
carried a (truthy) peer id, broadcast `peer-left` with no exclusion. -/
def handleLeave (conns : List Conn) (ws : Conn) : List Send :=
  match ws.attachment with
  | Option.some a =>
    if a.id = "" then []
    else broadcastSends conns (OutMsg.peerLeft a.id) Option.none
  | Option.none => []

/-- `handleNameChanged`: requires a (truthy) sender id, stores `data.name`
(possibly `undefined`) in the attachment and broadcasts `name-changed`
excluding the sender's id. -/
def handleNameChanged (st : RoomState) (sender : Conn) (msg : SignalingMessage) :
    RoomState × List Send :=
  match sender.attachment with
  | Option.none => (st, [])
  | Option.some a =>
    if a.id = "" then (st, [])
    else
      let newName := msg.data.bind (fun o => o.name)
      let conns' := setAttachment st.conns sender.wsId { a with name := newName }
      ({ st with conns := conns' },
        broadcastSends conns' (OutMsg.nameChanged a.id newName) (Option.some a.id))

/-- The nine point-to-point message types the server forwards. -/
def forwardedTypes : List MsgType :=
  [MsgType.offer, MsgType.answer, MsgType.iceCandidate, MsgType.text,
   MsgType.relayData, MsgType.keyExchange, MsgType.fileRequest,
   MsgType.fileResponse, MsgType.fileCancel]

/-- The `peers`-array entry a `joined` reply owes to one other connection:
nothing for the joining socket itself, nothing for a connection that is not
open or carries no (non-empty) peer id, and otherwise exactly the
attachment's fields. -/
def joinInfoFn (w : Nat) (c : Conn) : Option PeerInfo :=
  if c.wsId = w then Option.none
  else if c.readyState = true then
    match c.attachment with
    | Option.some a =>
      if a.id = "" then Option.none
      else Option.some ⟨a.id, a.name, a.deviceType, a.browserInfo⟩
    | Option.none => Option.none
  else Option.none

/-- `webSocketMessage`: dispatch on the message type (types without a `case`
are ignored). -/
def webSocketMessage (st : RoomState) (sender : Conn) (msg : SignalingMessage)
    (freshId genName : String) : RoomState × List Send :=
  match msg.type with
  | MsgType.join => handleJoin st sender msg freshId genName
  | MsgType.offer => (st, handleSignaling st.conns sender msg)
  | MsgType.answer => (st, handleSignaling st.conns sender msg)
  | MsgType.iceCandidate => (st, handleSignaling st.conns sender msg)
  | MsgType.text => (st, handleText st.conns sender msg)
  | MsgType.relayData => (st, handleRelayData st.conns sender msg)
  | MsgType.keyExchange => (st, handleKeyExchange st.conns sender msg)
  | MsgType.nameChanged => handleNameChanged st sender msg
  | MsgType.fileRequest => (st, handleFileSignaling st.conns sender msg)
  | MsgType.fileResponse => (st, handleFileSignaling st.conns sender msg)
  | MsgType.fileCancel => (st, handleFileSignaling st.conns sender msg)
  | _ => (st, [])

/-- Responses of the `/set-password` endpoint. -/
inductive SetPwResponse
  | methodNotAllowed
  | alreadySet
  | invalidHash
  | invalidBody
  | ok
deriving DecidableEq, Repr

/-- HTTP status of a `/set-password` response. -/
def respStatus : SetPwResponse → Nat
  | SetPwResponse.methodNotAllowed => 405
  | SetPwResponse.alreadySet => 400
  | SetPwResponse.invalidHash => 400
  | SetPwResponse.invalidBody => 400
  | SetPwResponse.ok => 200

/-- The `success` field of a `/set-password` JSON response (`none` for the
plain-text 405). -/
def respSuccess : SetPwResponse → Option Bool
  | SetPwResponse.methodNotAllowed => Option.none
  | SetPwResponse.alreadySet => Option.some false
  | SetPwResponse.invalidHash => Option.some false
  | SetPwResponse.invalidBody => Option.some false
  | SetPwResponse.ok => Option.some true

/-- The parsed body of a `/set-password` request: `Except.error` when
`request.json()` throws, otherwise the `passwordHash` field when it is a
string (`none` when missing or not a string). -/
abbrev SetPwBody := Except Unit (Option String)

/-- `handleSetPassword`: method check, then the once-only check, then body
validation (an empty string is falsy and rejected as an invalid hash);
on success the hash is stored. -/
def handleSetPassword (pw : Option String) (method : String) (body : SetPwBody) :
    Option String × SetPwResponse :=
  if method ≠ "POST" then (pw, SetPwResponse.methodNotAllowed)
  else
    match pw with
    | Option.some _ => (pw, SetPwResponse.alreadySet)
    | Option.none =>
      match body with
      | Except.error _ => (pw, SetPwResponse.invalidBody)
      | Except.ok Option.none => (pw, SetPwResponse.invalidHash)
      | Except.ok (Option.some h) =>
        if h = "" then (pw, SetPwResponse.invalidHash)
        else (Option.some h, SetPwResponse.ok)

/-- The part of `handleSetPassword` that runs before the `await
request.json()` suspension: the method check and the once-only check.
`none` means both checks passed and the handler suspends awaiting the body. -/
def setPwCheck (pw : Option String) (method : String) : Option SetPwResponse :=
  if method ≠ "POST" then Option.some SetPwResponse.methodNotAllowed
  else
    match pw with
    | Option.some _ => Option.some SetPwResponse.alreadySet
    | Option.none => Option.none

/-- The part of `handleSetPassword` that runs after the body has been read:
validation and the store.  The once-only check is not repeated here — the
source re-reads nothing after the `await`. -/
def setPwFinish (pw : Option String) (body : SetPwBody) :
    Option String × SetPwResponse :=
  match body with
  | Except.error _ => (pw, SetPwResponse.invalidBody)
  | Except.ok Option.none => (pw, SetPwResponse.invalidHash)
  | Except.ok (Option.some h) =>
    if h = "" then (pw, SetPwResponse.invalidHash)
    else (Option.some h, SetPwResponse.ok)

/-- Outcome of the `/ws` upgrade handler for one request. -/
inductive WsAdmission
  | accepted
  | rejected (sentError : String) (sentMessage : String) (closeCode : Nat)
  | notWebSocket
deriving DecidableEq, Repr

/-- `handleWebSocket` admission decision: after the upgrade-header check, a
password-protected room rejects a falsy provided hash (absent or empty) with
`PASSWORD_REQUIRED`/4001 and a wrong hash with `PASSWORD_INCORRECT`/4002;
otherwise the socket is accepted. -/
def handleWebSocketAdmission (pw : Option String) (upgradeHeader : Option String)
    (provided : Option String) : WsAdmission :=
  if upgradeHeader ≠ Option.some "websocket" then WsAdmission.notWebSocket
  else
    match pw with
    | Option.none => WsAdmission.accepted
    | Option.some h =>
      match provided with
      | Option.none => WsAdmission.rejected "PASSWORD_REQUIRED" "此房间需要密码" 4001
      | Option.some p =>
        if p = "" then WsAdmission.rejected "PASSWORD_REQUIRED" "此房间需要密码" 4001
        else if p ≠ h then WsAdmission.rejected "PASSWORD_INCORRECT" "密码错误" 4002
        else WsAdmission.accepted

/-- The operations the room serves.  A set-password request is two events:
its arrival (`setPasswordRecv`, which runs `handleSetPassword` up to the
`await request.json()` suspension) and the later resolution of its body
(`setPasswordBody`, which runs the rest); `rid` identifies the request. -/
inductive ServerOp
  | setPasswordRecv (rid : Nat) (method : String)
  | setPasswordBody (rid : Nat) (body : SetPwBody)
  | checkPassword
  | wsUpgrade (upgradeHeader : Option String) (provided : Option String)
      (wsId : Nat) (roomCode : String)
  | wsMessage (wsId : Nat) (msg : SignalingMessage) (freshId genName : String)
  | wsClose (wsId : Nat)
  | wsError (wsId : Nat)

/-- Observable outcome of one operation.  `suspended` is a set-password
request whose response is still pending (it awaits its body); `dropped` is a
body resolution for a request id that is not suspended. -/
inductive Output
  | http (r : SetPwResponse)
  | suspended
  | dropped
  | checkPw (hasPassword : Bool)
  | admission (a : WsAdmission)
  | sends (l : List Send)
deriving DecidableEq, Repr

/-- Mark the socket with the given id as no longer `OPEN`. -/
def setClosed (conns : List Conn) (wsId : Nat) : List Conn :=
  conns.map (fun c => if c.wsId = wsId then { c with readyState := false } else c)

/-- One operation of the room.  A set-password arrival that passes the
method and once-only checks suspends (joins `pendingSetPw`) with no response
yet; its body resolution later validates and stores without re-checking,
exactly as the source does across the `await request.json()` boundary.  An
accepted upgrade adds an open socket with no attachment; a rejected upgrade
leaves no socket behind (the server closes it immediately after accepting).
On close/error the runtime has already taken the socket out of the `OPEN`
state; after the handler runs the socket is no longer part of
`getWebSockets()`. -/
def step (st : RoomState) (op : ServerOp) : RoomState × Output :=
  match op with
  | ServerOp.setPasswordRecv rid method =>
    match setPwCheck st.passwordHash method with
    | Option.some r => (st, Output.http r)
    | Option.none =>
      ({ st with pendingSetPw := st.pendingSetPw ++ [rid] }, Output.suspended)
  | ServerOp.setPasswordBody rid body =>
    if rid ∈ st.pendingSetPw then
      let r := setPwFinish st.passwordHash body
      ({ st with
          passwordHash := r.1
          pendingSetPw := st.pendingSetPw.filter (fun x => x ≠ rid) },
        Output.http r.2)
    else (st, Output.dropped)
  | ServerOp.checkPassword => (st, Output.checkPw st.passwordHash.isSome)
  | ServerOp.wsUpgrade up prov wsId roomCode =>
    let adm := handleWebSocketAdmission st.passwordHash up prov
    if adm = WsAdmission.accepted then
      ({ st with conns := st.conns ++ [⟨wsId, roomCode, true, Option.none⟩] },
        Output.admission adm)
    else (st, Output.admission adm)
  | ServerOp.wsMessage wsId msg freshId genName =>
    match st.conns.find? (fun c => c.wsId = wsId) with
    | Option.some c =>
      let r := webSocketMessage st c msg freshId genName
      (r.1, Output.sends r.2)
    | Option.none => (st, Output.sends [])
  | ServerOp.wsClose wsId =>
    let conns₀ := setClosed st.conns wsId
    match conns₀.find? (fun c => c.wsId = wsId) with
    | Option.some c =>
      ({ st with conns := conns₀.filter (fun c' => c'.wsId ≠ wsId) },
        Output.sends (handleLeave conns₀ c))
    | Option.none => (st, Output.sends [])
  | ServerOp.wsError wsId =>
    let conns₀ := setClosed st.conns wsId
    match conns₀.find? (fun c => c.wsId = wsId) with
    | Option.some c =>
      ({ st with conns := conns₀.filter (fun c' => c'.wsId ≠ wsId) },
        Output.sends (handleLeave conns₀ c))
    | Option.none => (st, Output.sends [])

/-- Run a sequence of operations, keeping only the state. -/
def runSteps (st : RoomState) (ops : List ServerOp) : RoomState :=
  ops.foldl (fun s op => (step s op).1) st

end Server

namespace Client

/-- Coerce an `Int` into the signed 32-bit range, as JavaScript's `| 0` /
`&` coercion (`ToInt32`) does. -/
def toInt32 (n : Int) : Int :=
  let m := n % 4294967296
  if m < 2147483648 then m else m - 4294967296

/-- One step of the fingerprint hash: `hash = ((hash << 5) - hash) + char`
followed by `hash = hash & hash`.  The shift works on the 32-bit coercion of
`hash`; the subtraction and addition are exact; the `&` coerces back to a
signed 32-bit integer. -/
def hashStep (h : Int) (c : Char) : Int :=
  toInt32 (toInt32 (h * 32) - h + c.toNat)

/-- The 32-bit fingerprint hash over a string's UTF-16 code points (all
strings involved stay in the basic plane, where `charCodeAt` agrees with the
code point). -/
def fingerprintInt (s : String) : Int :=
  s.data.foldl hashStep 0

/-- Hexadecimal rendering of a natural number, as `Number.prototype.toString(16)`. -/
def natToHex (n : Nat) : String :=
  (Nat.toDigits 16 n).asString

/-- JavaScript `toString(16)` on an integer: a minus sign followed by the hex
digits of the absolute value when negative. -/
def intToHex (i : Int) : String :=
  if i < 0 then "-" ++ natToHex i.natAbs else natToHex i.toNat

/-- A remote peer as the client stores it (from `joined` / `peer-joined`). -/
structure CPeer where
  id : String
  name : String
  deviceType : String
  browserInfo : Option String
deriving DecidableEq, Repr

/-- `getDeviceFingerprint`: hash of `` `${name}|${deviceType}|${browserInfo || ''}` ``
rendered in base 16. -/
def getDeviceFingerprint (p : CPeer) : String :=
  intToHex (fingerprintInt (p.name ++ "|" ++ p.deviceType ++ "|" ++ p.browserInfo.getD ""))

/-- A record of the trusted-devices store. -/
structure TrustRecord where
  name : String
  deviceType : String
  browserInfo : Option String
  trustedAt : Nat
deriving DecidableEq, Repr

/-- Metadata of a pending `file-request`. -/
structure FileReqData where
  fileId : String
  name : String
  size : Nat
  totalChunks : Nat
  transferMode : Option String
deriving DecidableEq, Repr

/-- `pendingFileRequest` contents. -/
structure PendingFileRequest where
  peerId : String
  fileId : String
  data : FileReqData
deriving DecidableEq, Repr

/-- `currentTransfer` contents. -/
structure CurrentTransfer where
  peerId : String
  fileId : String
  fileName : String
  direction : String
deriving DecidableEq, Repr

/-- An entry of `webrtc.incomingTransfers`. -/
structure IncomingTransfer where
  fileId : String
  name : String
  size : Nat
  totalChunks : Nat
  received : Nat
  startTime : Nat
  confirmed : Bool
deriving DecidableEq, Repr

/-- The part of the client application state the verified claims touch. -/
structure ClientState where
  trustedDevices : List (String × TrustRecord)
  peers : List (String × CPeer)
  pendingFileRequest : Option PendingFileRequest
  currentTransfer : Option CurrentTransfer
  incomingTransfers : List (String × IncomingTransfer)
  roomPassword : Option String
  roomPasswordHash : Option String
  isSecureRoom : Bool
  roomCode : Option String
deriving DecidableEq, Repr

/-- The state of a freshly constructed client (empty stores, no room code,
no password). -/
def initialClientState : ClientState :=
  { trustedDevices := []
    peers := []
    pendingFileRequest := Option.none
    currentTransfer := Option.none
    incomingTransfers := []
    roomPassword := Option.none
    roomPasswordHash := Option.none
    isSecureRoom := false
    roomCode := Option.none }

/-- Observable side effects of the client code paths under verification. -/
inductive ClientEffect
  | sendFileResponse (peerId fileId : String) (accepted : Bool)
  | saveTrustedDevices (store : List (String × TrustRecord))
  | updateTrustedBadge (peerId : String) (trusted : Bool)
  | toast (message kind : String)
  | showModalReceive
  | hideModalReceive
  | updateReceiveModal (senderName deviceType : String) (browserInfo : Option String)
      (fileName : String) (size : Nat) (mode : String)
  | triggerNotify
  | showReceivingModal (name : String) (size : Nat) (mode : String)
  | updateConnectionStatus (status message : String)
  | showJoinRoomModal (roomCode : String)
  | scheduleReconnect (delayMs : Nat)
  | cryptoClearRoomPassword
  | updateRoomSecurityBadge
deriving DecidableEq, Repr

/-- Modelled from the spec: `webrtc.respondToFileRequest` lives in
`webrtc.js`, which is not under `src/`; per the spec the receiver responds
with a `file-response` message `{fileId, accepted}` addressed to the sender,
here recorded as the corresponding observable effect. -/
def respondToFileRequest (peerId fileId : String) (accepted : Bool) : ClientEffect :=
  ClientEffect.sendFileResponse peerId fileId accepted

/-- `isDeviceTrusted`: membership of the peer's fingerprint in the store. -/
def isDeviceTrusted (st : ClientState) (p : CPeer) : Bool :=
  (mapGet st.trustedDevices (getDeviceFingerprint p)).isSome

/-- `trustDevice`: store a record under the fingerprint, persist, update the
badge and show a toast. -/
def trustDevice (st : ClientState) (p : CPeer) (now : Nat) :
    ClientState × List ClientEffect :=
  let fp := getDeviceFingerprint p
  let store := mapSet st.trustedDevices fp
    { name := p.name, deviceType := p.deviceType, browserInfo := p.browserInfo,
      trustedAt := now }
  ({ st with trustedDevices := store },
    [ClientEffect.saveTrustedDevices store,
     ClientEffect.updateTrustedBadge p.id true,
     ClientEffect.toast ("已信任设备: " ++ p.name) "success"])

/-- `untrustDevice`: delete the fingerprint's entry, persist, update the badge. -/
def untrustDevice (st : ClientState) (p : CPeer) :
    ClientState × List ClientEffect :=
  let fp := getDeviceFingerprint p
  let store := st.trustedDevices.filter (fun q => q.1 ≠ fp)
  ({ st with trustedDevices := store },
    [ClientEffect.saveTrustedDevices store,
     ClientEffect.updateTrustedBadge p.id false])

/-- `acceptFileRequest`: no-op without a pending request; otherwise respond
`accepted = true`, record the current transfer, swap the modals and
initialize the receiving-transfer entry. -/
def acceptFileRequest (st : ClientState) (now : Nat) :
    ClientState × List ClientEffect :=
  match st.pendingFileRequest with
  | Option.none => (st, [])
  | Option.some pfr =>
    let d := pfr.data
    let mode := if d.transferMode = Option.some "relay" then "relay" else "p2p"
    ({ st with
        currentTransfer := Option.some
          { peerId := pfr.peerId, fileId := pfr.fileId, fileName := d.name,
            direction := "receive" }
        incomingTransfers := mapSet st.incomingTransfers pfr.peerId
          { fileId := pfr.fileId, name := d.name, size := d.size,
            totalChunks := d.totalChunks, received := 0, startTime := now,
            confirmed := true }
        pendingFileRequest := Option.none },
      [respondToFileRequest pfr.peerId pfr.fileId true,
       ClientEffect.hideModalReceive,
       ClientEffect.showReceivingModal d.name d.size mode])

/-- `declineFileRequest`: respond `accepted = false` and drop the pending
request. -/
def declineFileRequest (st : ClientState) : ClientState × List ClientEffect :=
  match st.pendingFileRequest with
  | Option.none => (st, [])
  | Option.some pfr =>
    ({ st with pendingFileRequest := Option.none },
      [respondToFileRequest pfr.peerId pfr.fileId false,
       ClientEffect.hideModalReceive,
       ClientEffect.toast "已拒绝文件接收" "info"])

/-- JavaScript `x || default` on an optional string. -/
def jsOr (s : Option String) (dflt : String) : String :=
  match s with
  | Option.some v => if v = "" then dflt else v
  | Option.none => dflt

/-- `handleFileRequest`: store the pending request; auto-accept (with a
toast, no confirmation modal) when the sending peer is known and trusted;
otherwise fill and show the confirmation modal without responding. -/
def handleFileRequest (st : ClientState) (peerId : String) (d : FileReqData)
    (now : Nat) : ClientState × List ClientEffect :=
  let peer := mapGet st.peers peerId
  let mode := if d.transferMode = Option.some "relay" then "relay" else "p2p"
  let pfr : PendingFileRequest := { peerId := peerId, fileId := d.fileId, data := d }
  let st1 := { st with pendingFileRequest := Option.some pfr }
  match peer with
  | Option.some p =>
    if isDeviceTrusted st1 p then
      let r := acceptFileRequest st1 now
      (r.1, ClientEffect.toast ("自动接收来自 " ++ p.name ++ " 的文件: " ++ d.name) "info" :: r.2)
    else
      (st1,
        [ClientEffect.updateReceiveModal p.name (jsOr (Option.some p.deviceType) "desktop")
           p.browserInfo d.name d.size mode,
         ClientEffect.triggerNotify,
         ClientEffect.showModalReceive])
  | Option.none =>
    (st1,
      [ClientEffect.updateReceiveModal "未知设备" "desktop" Option.none d.name d.size mode,
       ClientEffect.triggerNotify,
       ClientEffect.showModalReceive])

/-- `acceptAndTrustDevice`: with a pending request, trust the sending device
when it is still known, then accept the file. -/
def acceptAndTrustDevice (st : ClientState) (now : Nat) :
    ClientState × List ClientEffect :=
  match st.pendingFileRequest with
  | Option.none => (st, [])
  | Option.some pfr =>
    match mapGet st.peers pfr.peerId with
    | Option.some p =>
      let r1 := trustDevice st p now
      let r2 := acceptFileRequest r1.1 now
      (r2.1, r1.2 ++ r2.2)
    | Option.none => acceptFileRequest st now

/-- `clearRoomPassword`: null out the password material, clear the crypto
manager's copy and refresh the badge. -/
def clearRoomPassword (st : ClientState) : ClientState × List ClientEffect :=
  ({ st with
      roomPassword := Option.none
      roomPasswordHash := Option.none
      isSecureRoom := false },
    [ClientEffect.cryptoClearRoomPassword, ClientEffect.updateRoomSecurityBadge])

/-- The `ws.onclose` handler: on close codes 4001/4002 show the error, clear
the password material and (when a room code is set) reopen the join modal,
scheduling no reconnect; on every other code schedule a reconnect after a
fixed 3000 ms. -/
def wsOnClose (st : ClientState) (code : Nat) : ClientState × List ClientEffect :=
  if code = 4001 ∨ code = 4002 then
    let r := clearRoomPassword st
    let joinModal : List ClientEffect :=
      match st.roomCode with
      | Option.some rc => if rc = "" then [] else [ClientEffect.showJoinRoomModal rc]
      | Option.none => []
    (r.1,
      ClientEffect.updateConnectionStatus "disconnected" "密码错误" ::
        ClientEffect.toast (if code = 4001 then "此房间需要密码" else "房间密码错误") "error" ::
          r.2 ++ joinModal)
  else
    (st, [ClientEffect.updateConnectionStatus "disconnected" "已断开",
          ClientEffect.scheduleReconnect 3000])

/-- The reconnect delays appearing in a list of effects. -/
def scheduledDelays (effs : List ClientEffect) : List Nat :=
  effs.filterMap (fun e =>
    match e with
    | ClientEffect.scheduleReconnect d => Option.some d
    | _ => Option.none)

/-- Modelled from the spec: the reconnect-delay schedule the specification
describes ("exponential backoff starting at 3s, capped at 30s"), for
comparison with the code's schedule; `n` counts earlier retries. -/
def specClaimedReconnectDelay (n : Nat) : Nat :=
  min (3000 * 2 ^ n) 30000

end Client

/-! Helper lemmas about the JavaScript-`Map` embedding. -/

theorem mapGet_eq_none_iff {α : Type} (l : List (String × α)) (k : String) :
    mapGet l k = Option.none ↔ ∀ q ∈ l, q.1 ≠ k := by
  simp [mapGet, List.find?_eq_none]

theorem mapSet_of_not_mem {α : Type} (l : List (String × α)) (k : String) (v : α)
    (h : ∀ q ∈ l, q.1 ≠ k) : mapSet l k v = l ++ [(k, v)] := by
  rw [mapSet, if_neg]
  simp only [List.any_eq_true, not_exists, not_and]
  intro q hq
  simp [h q hq]

theorem mem_mapSet {α : Type} {l : List (String × α)} {k : String} {v : α}
    {x : String × α} (hx : x ∈ mapSet l k v) : x ∈ l ∨ x = (k, v) := by
  rw [mapSet] at hx
  split at hx
  · rcases List.mem_map.mp hx with ⟨q, hq, hqe⟩
    by_cases hk : q.1 = k
    · right
      rw [if_pos hk] at hqe
      exact hqe.symm
    · left
      rw [if_neg hk] at hqe
      exact hqe ▸ hq
  · rcases List.mem_append.mp hx with h | h
    · exact Or.inl h
    · exact Or.inr (by simpa using h)

theorem mapGet_mapSet_self {α : Type} (l : List (String × α)) (k : String) (v : α) :
    mapGet (mapSet l k v) k = Option.some v := by
  induction l with
  | nil => simp [mapSet, mapGet]
  | cons q rest ih =>
    by_cases hq : q.1 = k
    · simp [mapSet, mapGet, hq, List.find?_cons]
    · have hstep : mapSet (q :: rest) k v = q :: mapSet rest k v := by
        by_cases hr : rest.any (fun p => p.1 = k) <;> simp [mapSet, hq, hr]
      rw [hstep]
      have hskip : mapGet (q :: mapSet rest k v) k = mapGet (mapSet rest k v) k := by
        simp [mapGet, List.find?_cons, hq]
      rw [hskip, ih]


open Server Client

/-! The set-password endpoint: the sequential handler is the composition of
its two phases, and the claimed once-set immutability fails under the
concurrency the source allows between them. -/

theorem handleSetPassword_eq_phases (pw : Option String) (method : String)
    (body : SetPwBody) :
    handleSetPassword pw method body
      = match setPwCheck pw method with
        | Option.some r => (pw, r)
        | Option.none => setPwFinish pw body := by
  by_cases hm : method ≠ "POST" <;> cases pw <;>
    rcases body with e | (_ | h) <;>
      simp [handleSetPassword, setPwCheck, setPwFinish, hm]

/-- C1 (code bug): `handleSetPassword` suspends at `await request.json()`
between the once-only check and the store, with no critical section and no
re-check after the suspension.  Starting from a room with no password, two
concurrent POST set-password requests both pass the check and suspend; the
second to arrive completes first and succeeds with hash `h2`; then the first
request's body resolves and it also succeeds, overwriting the stored hash
with `h1`.  The claim — after the first success every subsequent request
fails with 400 and the stored hash stays equal to the first successful
argument for the room's entire life — is violated on this schedule, which
the specification explicitly requires to be excluded by a critical section. -/
theorem setPassword_concurrent_double_success :
    (step (RoomState.mk [] Option.none [])
        (ServerOp.setPasswordRecv 1 "POST")).2 = Output.suspended ∧
    (step (runSteps (RoomState.mk [] Option.none [])
          [ServerOp.setPasswordRecv 1 "POST"])
        (ServerOp.setPasswordRecv 2 "POST")).2 = Output.suspended ∧
    (step (runSteps (RoomState.mk [] Option.none [])
          [ServerOp.setPasswordRecv 1 "POST", ServerOp.setPasswordRecv 2 "POST"])
        (ServerOp.setPasswordBody 2 (Except.ok (Option.some "h2")))).2
      = Output.http SetPwResponse.ok ∧
    (runSteps (RoomState.mk [] Option.none [])
        [ServerOp.setPasswordRecv 1 "POST", ServerOp.setPasswordRecv 2 "POST",
         ServerOp.setPasswordBody 2 (Except.ok (Option.some "h2"))]).passwordHash
      = Option.some "h2" ∧
    (step (runSteps (RoomState.mk [] Option.none [])
          [ServerOp.setPasswordRecv 1 "POST", ServerOp.setPasswordRecv 2 "POST",
           ServerOp.setPasswordBody 2 (Except.ok (Option.some "h2"))])
        (ServerOp.setPasswordBody 1 (Except.ok (Option.some "h1")))).2
      = Output.http SetPwResponse.ok ∧
    (runSteps (RoomState.mk [] Option.none [])
        [ServerOp.setPasswordRecv 1 "POST", ServerOp.setPasswordRecv 2 "POST",
         ServerOp.setPasswordBody 2 (Except.ok (Option.some "h2")),
         ServerOp.setPasswordBody 1 (Except.ok (Option.some "h1"))]).passwordHash
      = Option.some "h1" ∧
    respStatus SetPwResponse.ok = 200 ∧
    respSuccess SetPwResponse.ok = Option.some true ∧
    (Option.some "h1" : Option String) ≠ Option.some "h2" :=
  ⟨rfl, rfl, rfl, rfl, rfl, rfl, rfl, rfl, by decide⟩

/-- C2: on a WebSocket upgrade, a room without a password accepts any
presented hash; a room with (non-empty) stored hash `h` rejects an absent
hash — and an empty header value, which the code's falsiness test treats as
absent — with `PASSWORD_REQUIRED` / close 4001, rejects a presented non-empty
hash different from `h` with `PASSWORD_INCORRECT` / close 4002, and accepts a
presented hash equal to `h`. -/
theorem wsAdmission_password_gate (h : String) (hh : h ≠ "") :
    (∀ provided, handleWebSocketAdmission Option.none (Option.some "websocket") provided
        = WsAdmission.accepted) ∧
    handleWebSocketAdmission (Option.some h) (Option.some "websocket") Option.none
        = WsAdmission.rejected "PASSWORD_REQUIRED" "此房间需要密码" 4001 ∧
    handleWebSocketAdmission (Option.some h) (Option.some "websocket") (Option.some "")
        = WsAdmission.rejected "PASSWORD_REQUIRED" "此房间需要密码" 4001 ∧
    (∀ p, p ≠ "" → p ≠ h →
      handleWebSocketAdmission (Option.some h) (Option.some "websocket") (Option.some p)
        = WsAdmission.rejected "PASSWORD_INCORRECT" "密码错误" 4002) ∧
    handleWebSocketAdmission (Option.some h) (Option.some "websocket") (Option.some h)
        = WsAdmission.accepted := by
  refine ⟨fun provided => ?_, ?_, ?_, fun p hp hph => ?_, ?_⟩ <;>
    simp [handleWebSocketAdmission, hh, *]

theorem wsAdmission_password_gate_witness :
    handleWebSocketAdmission (Option.some "a") (Option.some "websocket") (Option.some "b")
      = WsAdmission.rejected "PASSWORD_INCORRECT" "密码错误" 4002 ∧
    handleWebSocketAdmission (Option.some "a") (Option.some "websocket") (Option.some "a")
      = WsAdmission.accepted := by
  have hmain := wsAdmission_password_gate "a" (by decide)
  exact ⟨hmain.2.2.2.1 "b" (by decide) (by decide), hmain.2.2.2.2⟩

/-- C7: a close with code 4001 or 4002 clears all in-memory password material
and schedules no reconnect; a close with any other code schedules a reconnect
(after 3000 ms). -/
theorem password_close_clears_and_stops_reconnect :
    (∀ (st : ClientState) (code : Nat), code = 4001 ∨ code = 4002 →
      ((wsOnClose st code).1).roomPassword = Option.none ∧
      ((wsOnClose st code).1).roomPasswordHash = Option.none ∧
      ((wsOnClose st code).1).isSecureRoom = false ∧
      ∀ d, ClientEffect.scheduleReconnect d ∉ (wsOnClose st code).2) ∧
    (∀ (st : ClientState) (code : Nat), code ≠ 4001 → code ≠ 4002 →
      ClientEffect.scheduleReconnect 3000 ∈ (wsOnClose st code).2) := by
  constructor
  · intro st code hc
    refine ⟨?_, ?_, ?_, ?_⟩
    · simp [wsOnClose, hc, clearRoomPassword]
    · simp [wsOnClose, hc, clearRoomPassword]
    · simp [wsOnClose, hc, clearRoomPassword]
    · intro d
      simp only [wsOnClose, if_pos hc, clearRoomPassword]
      rcases hrc : st.roomCode with _ | rc <;>
        simp [hrc, List.mem_cons, List.mem_append]
  · intro st code h1 h2
    have hc : ¬(code = 4001 ∨ code = 4002) := by tauto
    simp [wsOnClose, hc]

theorem password_close_clears_and_stops_reconnect_witness :
    ((wsOnClose initialClientState 4001).1).roomPassword = Option.none ∧
    (∀ d, ClientEffect.scheduleReconnect d ∉ (wsOnClose initialClientState 4002).2) ∧
    ClientEffect.scheduleReconnect 3000 ∈ (wsOnClose initialClientState 1006).2 := by
  have hmain := password_close_clears_and_stops_reconnect
  exact ⟨(hmain.1 initialClientState 4001 (Or.inl rfl)).1,
    (hmain.1 initialClientState 4002 (Or.inr rfl)).2.2.2,
    hmain.2 initialClientState 1006 (by decide) (by decide)⟩

/-- C8 counterexample: the delay the client schedules after a non-password
close is 3000 ms on the first retry and still 3000 ms on the next one,
whereas the claimed exponential schedule requires 6000 ms there. -/
theorem reconnect_delay_constant_not_doubled :
    scheduledDelays (wsOnClose initialClientState 1006).2 = [3000] ∧
    scheduledDelays (wsOnClose (wsOnClose initialClientState 1006).1 1006).2 = [3000] ∧
    specClaimedReconnectDelay 0 = 3000 ∧
    specClaimedReconnectDelay 1 = 6000 ∧
    (3000 : Nat) ≠ 6000 :=
  ⟨rfl, rfl, rfl, rfl, by decide⟩

/-- C8 amended: after every close whose code is not a password error the
client schedules exactly one reconnect attempt, always after a fixed 3000 ms
delay (no exponential growth, no cap). -/
theorem reconnect_fixed_three_seconds (st : ClientState) (code : Nat)
    (h1 : code ≠ 4001) (h2 : code ≠ 4002) :
    scheduledDelays (wsOnClose st code).2 = [3000] := by
  have hc : ¬(code = 4001 ∨ code = 4002) := by tauto
  simp [wsOnClose, hc, scheduledDelays]

theorem reconnect_fixed_three_seconds_witness :
    scheduledDelays (wsOnClose initialClientState 1000).2 = [3000] :=
  reconnect_fixed_three_seconds initialClientState 1000 (by decide) (by decide)

/-- C9 counterexample: starting from a store that already trusts the peer's
fingerprint, `trustDevice` then `untrustDevice` leaves an empty store, not
the prior one. -/
theorem trust_untrust_deletes_preexisting_entry :
    (((untrustDevice
        (trustDevice
          { initialClientState with
              trustedDevices := [(getDeviceFingerprint ⟨"p1", "Alice", "desktop", Option.none⟩,
                ⟨"Alice", "desktop", Option.none, 0⟩)] }
          ⟨"p1", "Alice", "desktop", Option.none⟩ 5).1
        ⟨"p1", "Alice", "desktop", Option.none⟩).1).trustedDevices = []) ∧
    [(getDeviceFingerprint ⟨"p1", "Alice", "desktop", Option.none⟩,
        (⟨"Alice", "desktop", Option.none, 0⟩ : TrustRecord))]
      ≠ ([] : List (String × TrustRecord)) :=
  ⟨by decide, by decide⟩

/-- C9 amended: `trustDevice p` followed by `untrustDevice p` restores the
prior trust store whenever `p`'s fingerprint was not already present in it. -/
theorem trust_untrust_roundtrip_when_fresh (st : ClientState) (p : CPeer) (now : Nat)
    (hfp : mapGet st.trustedDevices (getDeviceFingerprint p) = Option.none) :
    ((untrustDevice (trustDevice st p now).1 p).1).trustedDevices
      = st.trustedDevices := by
  have hall : ∀ q ∈ st.trustedDevices, q.1 ≠ getDeviceFingerprint p :=
    (mapGet_eq_none_iff _ _).mp hfp
  simp only [trustDevice, untrustDevice]
  rw [mapSet_of_not_mem _ _ _ hall, List.filter_append]
  have h1 : st.trustedDevices.filter (fun q => q.1 ≠ getDeviceFingerprint p)
      = st.trustedDevices :=
    List.filter_eq_self.mpr (fun q hq => by simp [hall q hq])
  rw [h1]
  simp

theorem trust_untrust_roundtrip_when_fresh_witness :
    ((untrustDevice (trustDevice initialClientState ⟨"p2", "Bob", "mobile", Option.none⟩ 7).1
        ⟨"p2", "Bob", "mobile", Option.none⟩).1).trustedDevices
      = initialClientState.trustedDevices :=
  trust_untrust_roundtrip_when_fresh initialClientState ⟨"p2", "Bob", "mobile", Option.none⟩ 7 rfl

/-- C10: any forwarded-type or name-changed message arriving on a socket
whose attachment carries no peer id is ignored: no sends, no broadcasts, no
reply, and the room state is unchanged. -/
theorem preJoin_messages_ignored (st : RoomState) (sender : Conn)
    (msg : SignalingMessage) (freshId genName : String)
    (hatt : sender.attachment = Option.none)
    (ht : msg.type ∈ forwardedTypes ∨ msg.type = MsgType.nameChanged) :
    webSocketMessage st sender msg freshId genName = (st, []) := by
  rcases msg with ⟨t, toP, d⟩
  cases t
  all_goals
    first
      | (simp only [webSocketMessage, handleSignaling, handleText, handleRelayData,
          handleKeyExchange, handleFileSignaling, handleNameChanged, forwardCore, hatt] <;>
          (cases toP <;> simp))
      | (exfalso; simp [forwardedTypes] at ht)

theorem preJoin_messages_ignored_witness :
    webSocketMessage (RoomState.mk [Conn.mk 1 "ROOM" true Option.none] Option.none [])
      (Conn.mk 1 "ROOM" true Option.none)
      (SignalingMessage.mk MsgType.offer (Option.some "x") Option.none) "f" "g"
      = (RoomState.mk [Conn.mk 1 "ROOM" true Option.none] Option.none [], []) :=
  preJoin_messages_ignored _ _ _ _ _ rfl (Or.inl (by decide))

/-- C6: on a file-request from a known peer, a trusted fingerprint triggers an
automatic `accepted = true` response with no confirmation modal; an untrusted
one shows the confirmation modal and sends no file-response; and the
accept-and-trust choice persists a trust store containing the sender's
fingerprint before the `accepted = true` response is sent. -/
theorem fileRequest_trusted_shortcut :
    (∀ (st : ClientState) (peerId : String) (p : CPeer) (d : FileReqData) (now : Nat),
      mapGet st.peers peerId = Option.some p →
      isDeviceTrusted st p = true →
      respondToFileRequest peerId d.fileId true ∈ (handleFileRequest st peerId d now).2 ∧
      ClientEffect.showModalReceive ∉ (handleFileRequest st peerId d now).2) ∧
    (∀ (st : ClientState) (peerId : String) (p : CPeer) (d : FileReqData) (now : Nat),
      mapGet st.peers peerId = Option.some p →
      isDeviceTrusted st p = false →
      ClientEffect.showModalReceive ∈ (handleFileRequest st peerId d now).2 ∧
      ∀ q f b, ClientEffect.sendFileResponse q f b ∉ (handleFileRequest st peerId d now).2) ∧
    (∀ (st : ClientState) (pfr : PendingFileRequest) (p : CPeer) (now : Nat),
      st.pendingFileRequest = Option.some pfr →
      mapGet st.peers pfr.peerId = Option.some p →
      ∃ effs₁ effs₂,
        (acceptAndTrustDevice st now).2 = effs₁ ++ effs₂ ∧
        ClientEffect.saveTrustedDevices (((acceptAndTrustDevice st now).1).trustedDevices)
          ∈ effs₁ ∧
        mapGet (((acceptAndTrustDevice st now).1).trustedDevices) (getDeviceFingerprint p)
          ≠ Option.none ∧
        respondToFileRequest pfr.peerId pfr.fileId true ∈ effs₂) := by
  refine ⟨fun st peerId p d now hpeer htr => ?_,
    fun st peerId p d now hpeer htr => ?_,
    fun st pfr p now hpend hpeer => ?_⟩
  · have htr2 : (mapGet st.trustedDevices (getDeviceFingerprint p)).isSome = true := by
      simpa [isDeviceTrusted] using htr
    constructor <;>
      simp [handleFileRequest, hpeer, isDeviceTrusted, htr2, acceptFileRequest,
        respondToFileRequest]
  · have htr2 : (mapGet st.trustedDevices (getDeviceFingerprint p)).isSome = false := by
      simpa [isDeviceTrusted] using htr
    constructor
    · simp [handleFileRequest, hpeer, isDeviceTrusted, htr2]
    · intro q f b
      simp [handleFileRequest, hpeer, isDeviceTrusted, htr2]
  · refine ⟨(trustDevice st p now).2, (acceptFileRequest (trustDevice st p now).1 now).2,
      ?_, ?_, ?_, ?_⟩
    · simp [acceptAndTrustDevice, hpend, hpeer]
    · simp [acceptAndTrustDevice, hpend, hpeer, trustDevice, acceptFileRequest]
    · simp [acceptAndTrustDevice, hpend, hpeer, trustDevice, acceptFileRequest,
        mapGet_mapSet_self]
    · simp [acceptFileRequest, trustDevice, hpend, respondToFileRequest]

theorem fileRequest_trusted_shortcut_witness :
    (respondToFileRequest "pX" "f1" true ∈
      (handleFileRequest
        { initialClientState with
            peers := [("pX", ⟨"pX", "Ann", "desktop", Option.none⟩)]
            trustedDevices := [(getDeviceFingerprint ⟨"pX", "Ann", "desktop", Option.none⟩,
              ⟨"Ann", "desktop", Option.none, 1⟩)] }
        "pX" ⟨"f1", "doc.txt", 10, 1, Option.none⟩ 3).2) ∧
    (ClientEffect.showModalReceive ∈
      (handleFileRequest
        { initialClientState with peers := [("pX", ⟨"pX", "Ann", "desktop", Option.none⟩)] }
        "pX" ⟨"f1", "doc.txt", 10, 1, Option.none⟩ 3).2) ∧
    (∃ effs₁ effs₂,
      (acceptAndTrustDevice
        { initialClientState with
            peers := [("pX", ⟨"pX", "Ann", "desktop", Option.none⟩)]
            pendingFileRequest := Option.some ⟨"pX", "f1", ⟨"f1", "doc.txt", 10, 1, Option.none⟩⟩ }
        3).2 = effs₁ ++ effs₂ ∧
      ClientEffect.saveTrustedDevices
          (((acceptAndTrustDevice
            { initialClientState with
                peers := [("pX", ⟨"pX", "Ann", "desktop", Option.none⟩)]
                pendingFileRequest := Option.some ⟨"pX", "f1", ⟨"f1", "doc.txt", 10, 1, Option.none⟩⟩ }
            3).1).trustedDevices) ∈ effs₁ ∧
      mapGet (((acceptAndTrustDevice
            { initialClientState with
                peers := [("pX", ⟨"pX", "Ann", "desktop", Option.none⟩)]
                pendingFileRequest := Option.some ⟨"pX", "f1", ⟨"f1", "doc.txt", 10, 1, Option.none⟩⟩ }
            3).1).trustedDevices) (getDeviceFingerprint ⟨"pX", "Ann", "desktop", Option.none⟩)
          ≠ Option.none ∧
      respondToFileRequest "pX" "f1" true ∈ effs₂) := by
  have hmain := fileRequest_trusted_shortcut
  refine ⟨(hmain.1 _ "pX" ⟨"pX", "Ann", "desktop", Option.none⟩ _ 3 (by decide) (by decide)).1,
    (hmain.2.1 _ "pX" ⟨"pX", "Ann", "desktop", Option.none⟩ _ 3 (by decide) (by decide)).1,
    hmain.2.2 _ ⟨"pX", "f1", ⟨"f1", "doc.txt", 10, 1, Option.none⟩⟩
      ⟨"pX", "Ann", "desktop", Option.none⟩ 3 (by decide) (by decide)⟩

/-! Structure of `getActivePeers` under the room invariant that live peer ids
are pairwise distinct, and supporting list lemmas. -/

theorem entryId_eq_entryOf (c : Conn) :
    entryId c = (entryOf c).map (fun e => e.1) := by
  rcases hatt : c.attachment with _ | a
  · simp [entryId, entryOf, hatt]
  · by_cases hid : a.id = "" <;> simp [entryId, entryOf, hatt, hid]

theorem activeIds_cons_none {c : Conn} (h : entryId c = Option.none) (rest : List Conn) :
    activeIds (c :: rest) = activeIds rest := by
  simp [activeIds, List.filterMap_cons, h]

theorem activeIds_cons_some {c : Conn} {i : String} (h : entryId c = Option.some i)
    (rest : List Conn) : activeIds (c :: rest) = i :: activeIds rest := by
  simp [activeIds, List.filterMap_cons, h]

theorem mapGet_cons {α : Type} (q : String × α) (l : List (String × α)) (k : String) :
    mapGet (q :: l) k = if q.1 = k then Option.some q.2 else mapGet l k := by
  by_cases h : q.1 = k <;> simp [mapGet, List.find?_cons, h]

theorem foldl_activeStep_eq (conns : List Conn)
    (acc : List (String × Conn × PeerAttachment))
    (hd : ∀ q ∈ acc, ∀ i ∈ activeIds conns, q.1 ≠ i)
    (hn : (activeIds conns).Nodup) :
    conns.foldl activeStep acc = acc ++ conns.filterMap entryOf := by
  induction conns generalizing acc with
  | nil => simp
  | cons c rest ih =>
    rcases hatt : c.attachment with _ | a
    · have hidc : entryId c = Option.none := by simp [entryId, hatt]
      have hOf : entryOf c = Option.none := by simp [entryOf, hatt]
      rw [List.foldl_cons, show activeStep acc c = acc from by simp [activeStep, hatt],
        List.filterMap_cons, hOf]
      exact ih acc (by rw [activeIds_cons_none hidc] at hd; exact hd)
        (by rwa [activeIds_cons_none hidc] at hn)
    · by_cases hid : a.id = ""
      · have hidc : entryId c = Option.none := by simp [entryId, hatt, hid]
        have hOf : entryOf c = Option.none := by simp [entryOf, hatt, hid]
        rw [List.foldl_cons, show activeStep acc c = acc from by simp [activeStep, hatt, hid],
          List.filterMap_cons, hOf]
        exact ih acc (by rw [activeIds_cons_none hidc] at hd; exact hd)
          (by rwa [activeIds_cons_none hidc] at hn)
      · have hidc : entryId c = Option.some a.id := by simp [entryId, hatt, hid]
        have hOf : entryOf c = Option.some (a.id, c, a) := by simp [entryOf, hatt, hid]
        rw [activeIds_cons_some hidc] at hd hn
        have hstep : activeStep acc c = acc ++ [(a.id, c, a)] := by
          rw [activeStep]
          simp only [hatt, hid, if_neg (by simp [hid] : ¬a.id = "")]
          exact mapSet_of_not_mem acc a.id (c, a)
            (fun q hq => hd q hq a.id (List.mem_cons_self _ _))
        rw [List.foldl_cons, hstep, List.filterMap_cons, hOf,
          ih (acc ++ [(a.id, c, a)]) ?_ (List.nodup_cons.mp hn).2]
        · simp
        · intro q hq i hi
          rcases List.mem_append.mp hq with hq | hq
          · exact hd q hq i (List.mem_cons_of_mem _ hi)
          · have : q = (a.id, c, a) := by simpa using hq
            rw [this]
            intro heq
            have haid : a.id = i := heq
            exact (List.nodup_cons.mp hn).1 (haid ▸ hi)

theorem getActivePeers_eq_filterMap (conns : List Conn)
    (hn : (activeIds conns).Nodup) :
    getActivePeers conns = conns.filterMap entryOf := by
  have h := foldl_activeStep_eq conns [] (by simp) hn
  simpa [getActivePeers] using h

theorem mem_foldl_activeStep (conns : List Conn)
    (acc : List (String × Conn × PeerAttachment)) (x : String × Conn × PeerAttachment)
    (hx : x ∈ conns.foldl activeStep acc) :
    x ∈ acc ∨ (x.2.1 ∈ conns ∧ x.2.1.attachment = Option.some x.2.2 ∧
      x.2.2.id = x.1 ∧ x.1 ≠ "") := by
  induction conns generalizing acc with
  | nil => exact Or.inl (by simpa using hx)
  | cons c rest ih =>
    rw [List.foldl_cons] at hx
    rcases ih (activeStep acc c) hx with hacc | hp
    · rcases hatt : c.attachment with _ | a
      · rw [activeStep] at hacc
        simp only [hatt] at hacc
        exact Or.inl hacc
      · by_cases hid : a.id = ""
        · rw [activeStep] at hacc
          simp only [hatt, hid, if_pos rfl] at hacc
          exact Or.inl hacc
        · rw [activeStep] at hacc
          simp only [hatt, if_neg hid] at hacc
          rcases mem_mapSet hacc with h | h
          · exact Or.inl h
          · refine Or.inr ?_
            rw [h]
            exact ⟨List.mem_cons_self _ _, hatt, rfl, hid⟩
    · exact Or.inr ⟨List.mem_cons_of_mem _ hp.1, hp.2⟩

theorem mem_getActivePeers_sound (conns : List Conn) (x : String × Conn × PeerAttachment)
    (hx : x ∈ getActivePeers conns) :
    x.2.1 ∈ conns ∧ x.2.1.attachment = Option.some x.2.2 ∧ x.2.2.id = x.1 ∧ x.1 ≠ "" := by
  rcases mem_foldl_activeStep conns [] x hx with h | h
  · simp at h
  · exact h

theorem mem_of_mapGet_eq_some {α : Type} {l : List (String × α)} {k : String} {v : α}
    (h : mapGet l k = Option.some v) : (k, v) ∈ l := by
  simp only [mapGet] at h
  rcases Option.map_eq_some'.mp h with ⟨q, hq, hqv⟩
  have hm := List.mem_of_find?_eq_some hq
  have hp : q.1 = k := by simpa using List.find?_some hq
  rcases q with ⟨q1, q2⟩
  simp only at hp hqv
  rw [← hp, ← hqv]
  exact hm

theorem mapGet_getActivePeers_of_mem (conns : List Conn)
    (hn : (activeIds conns).Nodup) (c : Conn) (a : PeerAttachment)
    (hc : c ∈ conns) (hatt : c.attachment = Option.some a) (hid : a.id ≠ "") :
    mapGet (getActivePeers conns) a.id = Option.some (c, a) := by
  rw [getActivePeers_eq_filterMap conns hn]
  induction conns with
  | nil => cases hc
  | cons c₀ rest ih =>
    rcases hatt₀ : c₀.attachment with _ | a₀
    · have hOf : entryOf c₀ = Option.none := by simp [entryOf, hatt₀]
      have hne : c ≠ c₀ := by
        intro he
        rw [he, hatt₀] at hatt
        cases hatt
      have hc' : c ∈ rest := by
        rcases List.mem_cons.mp hc with h | h
        · exact absurd h hne
        · exact h
      rw [List.filterMap_cons, hOf]
      exact ih (by rwa [activeIds_cons_none (by simp [entryId, hatt₀])] at hn) hc'
    · by_cases hid₀ : a₀.id = ""
      · have hOf : entryOf c₀ = Option.none := by simp [entryOf, hatt₀, hid₀]
        have hne : c ≠ c₀ := by
          intro he
          rw [he, hatt₀] at hatt
          cases hatt
          exact hid hid₀
        have hc' : c ∈ rest := by
          rcases List.mem_cons.mp hc with h | h
          · exact absurd h hne
          · exact h
        rw [List.filterMap_cons, hOf]
        exact ih (by rwa [activeIds_cons_none (by simp [entryId, hatt₀, hid₀])] at hn) hc'
      · have hOf : entryOf c₀ = Option.some (a₀.id, c₀, a₀) := by
          simp [entryOf, hatt₀, hid₀]
        have hidc₀ : entryId c₀ = Option.some a₀.id := by simp [entryId, hatt₀, hid₀]
        rw [activeIds_cons_some hidc₀] at hn
        rw [List.filterMap_cons, hOf, mapGet_cons]
        by_cases hi : a₀.id = a.id
        · rcases List.mem_cons.mp hc with h | h
          · rw [h, hatt₀] at hatt
            cases hatt
            simp [hi, h]
          · exfalso
            have : a.id ∈ activeIds rest :=
              List.mem_filterMap.mpr ⟨c, h, by simp [entryId, hatt, hid]⟩
            exact (List.nodup_cons.mp hn).1 (hi ▸ this)
        · have hc' : c ∈ rest := by
            rcases List.mem_cons.mp hc with h | h
            · exfalso
              rw [h, hatt₀] at hatt
              cases hatt
              exact hi rfl
            · exact h
          rw [if_neg hi]
          exact ih (List.nodup_cons.mp hn).2 hc'

theorem broadcastSends_eq_filterMap (conns : List Conn) (m : OutMsg)
    (excl : Option String) (hn : (activeIds conns).Nodup) :
    broadcastSends conns m excl = conns.filterMap (openSendTo m excl) := by
  rw [broadcastSends, getActivePeers_eq_filterMap conns hn, List.filterMap_filterMap]
  apply List.filterMap_congr
  intro c _
  rcases hatt : c.attachment with _ | a
  · simp [entryOf, openSendTo, entryId, hatt]
  · by_cases hid : a.id = "" <;> simp [entryOf, openSendTo, entryId, hatt, hid]

/-- C3: a forwarded-type message from a joined sender is delivered exactly to
the live peer named by `to`, reshaped as `{type, from, data}`; with `to`
absent, or naming no open live peer, nothing is sent to anyone and the room
state is unchanged. -/
theorem forwarded_message_delivery (st : RoomState) (sender : Conn)
    (msg : SignalingMessage) (a : PeerAttachment) (freshId genName : String)
    (hatt : sender.attachment = Option.some a) (hid : a.id ≠ "")
    (htype : msg.type ∈ forwardedTypes)
    (hn : (activeIds st.conns).Nodup) :
    (webSocketMessage st sender msg freshId genName).1 = st ∧
    (∀ (c : Conn) (att : PeerAttachment), c ∈ st.conns → c.attachment = Option.some att →
      msg.toPeer = Option.some att.id → att.id ≠ "" → c.readyState = true →
      (webSocketMessage st sender msg freshId genName).2
        = [⟨c.wsId, OutMsg.forwarded msg.type a.id msg.data⟩]) ∧
    (msg.toPeer = Option.none → (webSocketMessage st sender msg freshId genName).2 = []) ∧
    (∀ t, msg.toPeer = Option.some t →
      (∀ c ∈ st.conns, ¬(c.readyState = true ∧ entryId c = Option.some t)) →
      (webSocketMessage st sender msg freshId genName).2 = []) := by
  have hred : webSocketMessage st sender msg freshId genName
      = (st, forwardCore st.conns sender msg.toPeer msg.type msg.data) := by
    rcases msg with ⟨t, toP, d⟩
    cases t <;> first
      | rfl
      | (exfalso; simp [forwardedTypes] at htype)
  refine ⟨by rw [hred], fun c att hc hcatt hto hidc hrs => ?_, fun hto => ?_,
    fun t hto hnone => ?_⟩
  · rw [hred]
    have hm := mapGet_getActivePeers_of_mem st.conns hn c att hc hcatt hidc
    simp [forwardCore, hto, hatt, hid, hidc, hm, hrs]
  · rw [hred]
    simp [forwardCore, hto]
  · rw [hred]
    by_cases ht0 : t = ""
    · simp [forwardCore, hto, ht0]
    · rcases hmg : mapGet (getActivePeers st.conns) t with _ | e
      · simp [forwardCore, hto, ht0, hatt, hid, hmg]
      · have hxmem : (t, e) ∈ getActivePeers st.conns := mem_of_mapGet_eq_some hmg
        have hs := mem_getActivePeers_sound st.conns (t, e) hxmem
        dsimp only at hs
        have hrs : e.1.readyState = false := by
          rcases hb : e.1.readyState with _ | _
          · rfl
          · exfalso
            exact hnone e.1 hs.1 ⟨hb, by simp [entryId, hs.2.1, hs.2.2.1, ht0]⟩
        simp [forwardCore, hto, ht0, hatt, hid, hmg, hrs]

theorem forwarded_message_delivery_witness :
    (webSocketMessage
      (RoomState.mk
        [Conn.mk 1 "R" true (Option.some ⟨"s1", Option.some "A", "desktop", Option.none⟩),
         Conn.mk 2 "R" true (Option.some ⟨"t2", Option.some "B", "mobile", Option.none⟩)]
        Option.none [])
      (Conn.mk 1 "R" true (Option.some ⟨"s1", Option.some "A", "desktop", Option.none⟩))
      (SignalingMessage.mk MsgType.offer (Option.some "t2")
        (Option.some { payload := Option.some "sdp" })) "f" "g").2
      = [⟨2, OutMsg.forwarded MsgType.offer "s1"
          (Option.some { payload := Option.some "sdp" })⟩] ∧
    (webSocketMessage
      (RoomState.mk
        [Conn.mk 1 "R" true (Option.some ⟨"s1", Option.some "A", "desktop", Option.none⟩)]
        Option.none [])
      (Conn.mk 1 "R" true (Option.some ⟨"s1", Option.some "A", "desktop", Option.none⟩))
      (SignalingMessage.mk MsgType.text (Option.some "ghost") Option.none) "f" "g").2 = [] := by
  constructor
  · exact (forwarded_message_delivery _ _ _ ⟨"s1", Option.some "A", "desktop", Option.none⟩
      "f" "g" rfl (by decide) (by decide) (by decide)).2.1
      (Conn.mk 2 "R" true (Option.some ⟨"t2", Option.some "B", "mobile", Option.none⟩))
      ⟨"t2", Option.some "B", "mobile", Option.none⟩
      (by decide) rfl rfl (by decide) rfl
  · exact (forwarded_message_delivery _ _ _ ⟨"s1", Option.some "A", "desktop", Option.none⟩
      "f" "g" rfl (by decide) (by decide) (by decide)).2.2.2 "ghost" rfl (by decide)

/-! Decomposition of the room's socket list around one socket, and transport
of the active-id invariant across attachment updates and closes. -/

theorem wsId_ne_of_nodup (l₁ l₂ : List Conn) (s : Conn)
    (hw : ((l₁ ++ s :: l₂).map (fun c => c.wsId)).Nodup) :
    ∀ c ∈ l₁ ++ l₂, c.wsId ≠ s.wsId := by
  rw [List.map_append, List.map_cons] at hw
  have h1 := (List.nodup_cons.mp (List.nodup_middle.mp hw)).1
  intro c hc heq
  apply h1
  rw [← List.map_append]
  exact List.mem_map.mpr ⟨c, hc, heq⟩

theorem map_update_eq_self (l : List Conn) (w : Nat) (f : Conn → Conn)
    (h : ∀ c ∈ l, c.wsId ≠ w) :
    l.map (fun c => if c.wsId = w then f c else c) = l := by
  calc l.map (fun c => if c.wsId = w then f c else c) = l.map id :=
        List.map_congr_left (fun c hc => by simp [h c hc])
    _ = l := List.map_id l

theorem setAttachment_decomp (l₁ l₂ : List Conn) (s : Conn) (a : PeerAttachment)
    (h : ∀ c ∈ l₁ ++ l₂, c.wsId ≠ s.wsId) :
    setAttachment (l₁ ++ s :: l₂) s.wsId a
      = l₁ ++ { s with attachment := Option.some a } :: l₂ := by
  rw [setAttachment, List.map_append, List.map_cons, if_pos rfl,
    map_update_eq_self l₁ s.wsId _ (fun c hc => h c (List.mem_append_left _ hc)),
    map_update_eq_self l₂ s.wsId _ (fun c hc => h c (List.mem_append_right _ hc))]

theorem setClosed_decomp (l₁ l₂ : List Conn) (s : Conn)
    (h : ∀ c ∈ l₁ ++ l₂, c.wsId ≠ s.wsId) :
    setClosed (l₁ ++ s :: l₂) s.wsId = l₁ ++ { s with readyState := false } :: l₂ := by
  rw [setClosed, List.map_append, List.map_cons, if_pos rfl,
    map_update_eq_self l₁ s.wsId _ (fun c hc => h c (List.mem_append_left _ hc)),
    map_update_eq_self l₂ s.wsId _ (fun c hc => h c (List.mem_append_right _ hc))]

theorem activeIds_append (l₁ l₂ : List Conn) :
    activeIds (l₁ ++ l₂) = activeIds l₁ ++ activeIds l₂ := by
  simp [activeIds, List.filterMap_append]

theorem activeIds_setClosed (conns : List Conn) (w : Nat) :
    activeIds (setClosed conns w) = activeIds conns := by
  rw [activeIds, setClosed, List.filterMap_map, activeIds]
  apply List.filterMap_congr
  intro c _
  by_cases h : c.wsId = w
  · simp only [Function.comp, h, ite_true]
    rfl
  · simp only [Function.comp, h, ite_false]

theorem openSendTo_dest (m : OutMsg) (excl : Option String) (c : Conn) (s : Send)
    (h : openSendTo m excl c = Option.some s) : s.dest = c.wsId := by
  cases hI : entryId c with
  | none =>
    rw [openSendTo] at h
    simp [hI] at h
  | some i =>
    rw [openSendTo] at h
    simp only [hI] at h
    split at h
    · cases h
      rfl
    · cases h

theorem openSendTo_exclude_of_ne (m : OutMsg) (i : String) (c : Conn)
    (h : entryId c ≠ Option.some i) :
    openSendTo m (Option.some i) c = openSendTo m Option.none c := by
  rw [openSendTo, openSendTo]
  cases hI : entryId c with
  | none => rfl
  | some j =>
    have hj : j ≠ i := fun he => h (by rw [hI, he])
    simp [hj]

theorem dest_ne_of_mem_excluded (conns : List Conn) (w : Nat) (g : Conn → Option Send)
    (hg : ∀ c s, g c = Option.some s → s.dest = c.wsId)
    (s : Send)
    (hs : s ∈ conns.filterMap (fun c => if c.wsId = w then Option.none else g c)) :
    s.dest ≠ w := by
  rcases List.mem_filterMap.mp hs with ⟨c, hc, hcs⟩
  by_cases h : c.wsId = w
  · rw [if_pos h] at hcs
    cases hcs
  · rw [if_neg h] at hcs
    rw [hg c s hcs]
    exact h

theorem fm_entryOf_keys (l : List Conn) :
    (l.filterMap entryOf).map (fun e => e.1) = activeIds l := by
  rw [List.map_filterMap, activeIds]
  apply List.filterMap_congr
  intro c _
  exact (entryId_eq_entryOf c).symm

theorem keys_ne_of_not_mem_activeIds (l : List Conn) (i : String)
    (hfl : i ∉ activeIds l) :
    ∀ e ∈ l.filterMap entryOf, e.1 ≠ i := by
  intro e he heq
  apply hfl
  rcases List.mem_filterMap.mp he with ⟨c, hc, hce⟩
  have hci : entryId c = Option.some e.1 := by
    rw [entryId_eq_entryOf, hce]
    rfl
  exact List.mem_filterMap.mpr ⟨c, hc, heq ▸ hci⟩

/-! Characterization of a broadcast over a socket list in which exactly one
socket (identified by its `wsId`) was replaced. -/

theorem broadcast_update_excluded (conns : List Conn) (sender sender' : Conn)
    (l₁ l₂ : List Conn) (m : OutMsg) (i : String)
    (hsplit : conns = l₁ ++ sender :: l₂)
    (hne : ∀ c ∈ l₁ ++ l₂, c.wsId ≠ sender.wsId)
    (hsid' : entryId sender' = Option.some i)
    (hfresh : i ∉ activeIds l₁ ++ activeIds l₂)
    (hn2 : (activeIds l₁ ++ activeIds l₂).Nodup) :
    broadcastSends (l₁ ++ sender' :: l₂) m (Option.some i)
      = conns.filterMap (fun c =>
          if c.wsId = sender.wsId then Option.none else openSendTo m Option.none c) := by
  have hn' : (activeIds (l₁ ++ sender' :: l₂)).Nodup := by
    rw [activeIds_append, activeIds_cons_some hsid']
    exact List.nodup_middle.mpr (List.nodup_cons.mpr ⟨hfresh, hn2⟩)
  have hs' : openSendTo m (Option.some i) sender' = Option.none := by
    rw [openSendTo]
    simp [hsid']
  rw [broadcastSends_eq_filterMap _ _ _ hn', hsplit, List.filterMap_append,
    List.filterMap_append, List.filterMap_cons_none hs',
    List.filterMap_cons_none (by simp)]
  congr 1
  · apply List.filterMap_congr
    intro c hc
    have h1 : entryId c ≠ Option.some i := by
      intro he
      exact hfresh (List.mem_append_left _ (List.mem_filterMap.mpr ⟨c, hc, he⟩))
    rw [openSendTo_exclude_of_ne m i c h1, if_neg (hne c (List.mem_append_left _ hc))]
  · apply List.filterMap_congr
    intro c hc
    have h1 : entryId c ≠ Option.some i := by
      intro he
      exact hfresh (List.mem_append_right _ (List.mem_filterMap.mpr ⟨c, hc, he⟩))
    rw [openSendTo_exclude_of_ne m i c h1, if_neg (hne c (List.mem_append_right _ hc))]

theorem broadcast_closed_none (conns : List Conn) (cLeaver : Conn) (l₁ l₂ : List Conn)
    (m : OutMsg)
    (hsplit : conns = l₁ ++ cLeaver :: l₂)
    (hne : ∀ c ∈ l₁ ++ l₂, c.wsId ≠ cLeaver.wsId)
    (hn : (activeIds conns).Nodup) :
    broadcastSends (l₁ ++ { cLeaver with readyState := false } :: l₂) m Option.none
      = conns.filterMap (fun c =>
          if c.wsId = cLeaver.wsId then Option.none else openSendTo m Option.none c) := by
  have hset : l₁ ++ { cLeaver with readyState := false } :: l₂
      = setClosed conns cLeaver.wsId := by
    rw [hsplit, setClosed_decomp l₁ l₂ cLeaver hne]
  have hn' : (activeIds (l₁ ++ { cLeaver with readyState := false } :: l₂)).Nodup := by
    rw [hset, activeIds_setClosed]
    exact hn
  have hclosed : openSendTo m Option.none { cLeaver with readyState := false }
      = Option.none := by
    rw [openSendTo]
    rcases hI : entryId { cLeaver with readyState := false } with _ | i
    · rfl
    · simp
  rw [broadcastSends_eq_filterMap _ _ _ hn', hsplit, List.filterMap_append,
    List.filterMap_append, List.filterMap_cons_none hclosed,
    List.filterMap_cons_none (by simp)]
  congr 1
  · apply List.filterMap_congr
    intro c hc
    rw [if_neg (hne c (List.mem_append_left _ hc))]
  · apply List.filterMap_congr
    intro c hc
    rw [if_neg (hne c (List.mem_append_right _ hc))]

theorem joinInfoFn_id (w : Nat) (c : Conn) (q : PeerInfo)
    (h : joinInfoFn w c = Option.some q) :
    entryId c = Option.some q.id ∧ c.wsId ≠ w ∧ c.readyState = true := by
  rw [joinInfoFn] at h
  split at h
  · cases h
  · rename_i h1
    split at h
    · rename_i h2
      split at h
      · rename_i a ha
        split at h
        · cases h
        · rename_i hid
          cases h
          exact ⟨by simp [entryId, ha, hid], h1, h2⟩
      · cases h
    · cases h

/-- C4: the `peers` array of a `joined` reply lists exactly one entry, built
from the attachment's fields, for each other open connection whose attachment
carries a peer id at that instant (`joinInfoFn`) — with no duplicate ids and
no entry for the joining peer itself. -/
theorem joined_reply_peers (st : RoomState) (sender : Conn) (msg : SignalingMessage)
    (freshId genName : String)
    (hmem : sender ∈ st.conns) (hatt : sender.attachment = Option.none)
    (hw : (st.conns.map (fun c => c.wsId)).Nodup)
    (hn : (activeIds st.conns).Nodup)
    (hfresh : freshId ∉ activeIds st.conns) (hfne : freshId ≠ "")
    (hopen : ∀ c ∈ st.conns, c.readyState = true)
    (htype : msg.type = MsgType.join) :
    ∃ (others : List PeerInfo) (bcast : List Send),
      (webSocketMessage st sender msg freshId genName).2
        = ⟨sender.wsId, OutMsg.joined freshId sender.tag others⟩ :: bcast ∧
      others = st.conns.filterMap (joinInfoFn sender.wsId) ∧
      (others.map (fun pi => pi.id)).Nodup ∧
      ∀ pi ∈ others, pi.id ≠ freshId := by
  rcases msg with ⟨t, toP, d⟩
  simp only at htype
  subst htype
  obtain ⟨l₁, l₂, hsplit⟩ := List.append_of_mem hmem
  have hne : ∀ c ∈ l₁ ++ l₂, c.wsId ≠ sender.wsId :=
    wsId_ne_of_nodup l₁ l₂ sender (by rw [← hsplit]; exact hw)
  have hact : activeIds st.conns = activeIds l₁ ++ activeIds l₂ := by
    rw [hsplit, activeIds_append, activeIds_cons_none (by simp [entryId, hatt])]
  set A : PeerAttachment :=
    ⟨freshId, Option.some (joinName d genName), joinDeviceType d,
      d.bind (fun o => o.browserInfo)⟩ with hAdef
  set sender' : Conn := { sender with attachment := Option.some A } with hS'def
  have hsid' : entryId sender' = Option.some freshId := by
    simp [entryId, hS'def, hAdef, hfne]
  have hconns' : setAttachment st.conns sender.wsId A = l₁ ++ sender' :: l₂ := by
    rw [hsplit]
    exact setAttachment_decomp l₁ l₂ sender A hne
  have hfresh2 : freshId ∉ activeIds l₁ ++ activeIds l₂ := by
    rw [← hact]
    exact hfresh
  have hn2 : (activeIds l₁ ++ activeIds l₂).Nodup := by
    rw [← hact]
    exact hn
  have hn' : (activeIds (l₁ ++ sender' :: l₂)).Nodup := by
    rw [activeIds_append, activeIds_cons_some hsid']
    exact List.nodup_middle.mpr (List.nodup_cons.mpr ⟨hfresh2, hn2⟩)
  have hOf' : entryOf sender' = Option.some (freshId, sender', A) := by
    simp [entryOf, hS'def, hAdef, hfne]
  have hothers :
      ((getActivePeers (setAttachment st.conns sender.wsId A)).filter
          (fun e => e.1 ≠ freshId)).map
        (fun e => (⟨e.1, e.2.2.name, e.2.2.deviceType, e.2.2.browserInfo⟩ : PeerInfo))
      = st.conns.filterMap (joinInfoFn sender.wsId) := by
    rw [hconns', getActivePeers_eq_filterMap _ hn', List.filterMap_append,
      List.filterMap_cons, hOf']
    rw [List.filter_append, List.filter_cons]
    have hhead : (decide ((freshId, sender', A).1 ≠ freshId)) = false := by simp
    rw [hhead, if_neg (by simp)]
    have hkeep : ∀ (l : List Conn), freshId ∉ activeIds l →
        (l.filterMap entryOf).filter (fun e => e.1 ≠ freshId) = l.filterMap entryOf := by
      intro l hfl
      exact List.filter_eq_self.mpr
        (fun e he => by simp [keys_ne_of_not_mem_activeIds l freshId hfl e he])
    rw [hkeep l₁ (fun hx => hfresh2 (List.mem_append_left _ hx)),
      hkeep l₂ (fun hx => hfresh2 (List.mem_append_right _ hx)),
      List.map_append]
    have hside : ∀ (l : List Conn), (∀ c ∈ l, c.wsId ≠ sender.wsId) →
        (∀ c ∈ l, c.readyState = true) →
        (l.filterMap entryOf).map
            (fun e => (⟨e.1, e.2.2.name, e.2.2.deviceType, e.2.2.browserInfo⟩ : PeerInfo))
          = l.filterMap (joinInfoFn sender.wsId) := by
      intro l hlw hlo
      rw [List.map_filterMap]
      apply List.filterMap_congr
      intro c hc
      rw [joinInfoFn, if_neg (hlw c hc), if_pos (hlo c hc)]
      rcases hca : c.attachment with _ | a
      · simp [entryOf, hca]
      · by_cases hcid : a.id = "" <;> simp [entryOf, hca, hcid]
    rw [hside l₁ (fun c hc => hne c (List.mem_append_left _ hc))
          (fun c hc => hopen c (by rw [hsplit]; exact List.mem_append_left _ hc)),
      hside l₂ (fun c hc => hne c (List.mem_append_right _ hc))
          (fun c hc => hopen c (by
            rw [hsplit]
            exact List.mem_append_right _ (List.mem_cons_of_mem _ hc)))]
    rw [hsplit, List.filterMap_append, List.filterMap_cons_none
      (by rw [joinInfoFn, if_pos rfl])]
  refine ⟨st.conns.filterMap (joinInfoFn sender.wsId),
    broadcastSends (setAttachment st.conns sender.wsId A)
      (OutMsg.peerJoined freshId A.name A.deviceType A.browserInfo) (Option.some freshId),
    ?_, rfl, ?_, ?_⟩
  · show (handleJoin st sender ⟨MsgType.join, toP, d⟩ freshId genName).2 = _
    rw [handleJoin]
    simp only [← hAdef]
    rw [hothers]
  · have hids : (st.conns.filterMap (joinInfoFn sender.wsId)).map (fun pi => pi.id)
        = activeIds l₁ ++ activeIds l₂ := by
      rw [List.map_filterMap, hsplit, List.filterMap_append, List.filterMap_cons_none
        (by rw [joinInfoFn, if_pos rfl]; rfl)]
      have hside : ∀ (l : List Conn), (∀ c ∈ l, c.wsId ≠ sender.wsId) →
          (∀ c ∈ l, c.readyState = true) →
          l.filterMap (fun c => (joinInfoFn sender.wsId c).map (fun pi => pi.id))
            = activeIds l := by
        intro l hlw hlo
        rw [activeIds]
        apply List.filterMap_congr
        intro c hc
        rw [joinInfoFn, if_neg (hlw c hc), if_pos (hlo c hc)]
        rcases hca : c.attachment with _ | a
        · simp [entryId, hca]
        · by_cases hcid : a.id = "" <;> simp [entryId, hca, hcid]
      rw [hside l₁ (fun c hc => hne c (List.mem_append_left _ hc))
            (fun c hc => hopen c (by rw [hsplit]; exact List.mem_append_left _ hc)),
        hside l₂ (fun c hc => hne c (List.mem_append_right _ hc))
            (fun c hc => hopen c (by
              rw [hsplit]
              exact List.mem_append_right _ (List.mem_cons_of_mem _ hc)))]
    rw [hids]
    exact hn2
  · intro pi hpi hpid
    rcases List.mem_filterMap.mp hpi with ⟨c, hc, hcs⟩
    have hidc := (joinInfoFn_id sender.wsId c pi hcs).1
    apply hfresh
    rw [← hpid]
    exact List.mem_filterMap.mpr ⟨c, hc, hidc⟩

theorem joined_reply_peers_witness :
    ∃ (others : List PeerInfo) (bcast : List Send),
      (webSocketMessage
        (RoomState.mk
          [Conn.mk 1 "R" true (Option.some ⟨"pa", Option.some "A", "desktop", Option.none⟩),
           Conn.mk 2 "R" true Option.none,
           Conn.mk 3 "R" true (Option.some ⟨"pb", Option.some "B", "mobile", Option.some "Chrome"⟩)]
          Option.none [])
        (Conn.mk 2 "R" true Option.none)
        (SignalingMessage.mk MsgType.join Option.none
          (Option.some { name := Option.some "New", deviceType := Option.some "desktop" }))
        "pf" "G").2
        = ⟨2, OutMsg.joined "pf" "R" others⟩ :: bcast ∧
      others =
        [Conn.mk 1 "R" true (Option.some ⟨"pa", Option.some "A", "desktop", Option.none⟩),
         Conn.mk 2 "R" true Option.none,
         Conn.mk 3 "R" true (Option.some ⟨"pb", Option.some "B", "mobile", Option.some "Chrome"⟩)].filterMap
          (joinInfoFn 2) ∧
      (others.map (fun pi => pi.id)).Nodup ∧
      ∀ pi ∈ others, pi.id ≠ "pf" :=
  joined_reply_peers
    (RoomState.mk
      [Conn.mk 1 "R" true (Option.some ⟨"pa", Option.some "A", "desktop", Option.none⟩),
       Conn.mk 2 "R" true Option.none,
       Conn.mk 3 "R" true (Option.some ⟨"pb", Option.some "B", "mobile", Option.some "Chrome"⟩)]
      Option.none [])
    (Conn.mk 2 "R" true Option.none)
    (SignalingMessage.mk MsgType.join Option.none
      (Option.some { name := Option.some "New", deviceType := Option.some "desktop" }))
    "pf" "G" (by decide) rfl (by decide) (by decide) (by decide) (by decide)
    (by decide) rfl

/-- C5: each broadcast is sent to exactly the live peers other than the one
it concerns — on a join every open attached connection except the joiner's
socket gets `peer-joined` (the joiner gets only its `joined` reply); on a
close/error every open attached connection except the (no longer open)
leaver gets `peer-left`, and the error handler behaves as the close handler;
on a rename every open attached connection except the renamer gets
`name-changed`.  In each case the concerned socket receives nothing. -/
theorem broadcasts_exclude_subject :
    (∀ (st : RoomState) (sender : Conn) (msg : SignalingMessage) (freshId genName : String),
      sender ∈ st.conns → sender.attachment = Option.none →
      (st.conns.map (fun c => c.wsId)).Nodup → (activeIds st.conns).Nodup →
      freshId ∉ activeIds st.conns → freshId ≠ "" → msg.type = MsgType.join →
      ∃ (others : List PeerInfo) (bcast : List Send),
        (webSocketMessage st sender msg freshId genName).2
          = ⟨sender.wsId, OutMsg.joined freshId sender.tag others⟩ :: bcast ∧
        bcast = st.conns.filterMap (fun c =>
          if c.wsId = sender.wsId then Option.none
          else openSendTo (OutMsg.peerJoined freshId
            (Option.some (joinName msg.data genName)) (joinDeviceType msg.data)
            (msg.data.bind (fun o => o.browserInfo))) Option.none c) ∧
        ∀ s ∈ bcast, s.dest ≠ sender.wsId) ∧
    (∀ (st : RoomState) (w : Nat) (c : Conn) (a : PeerAttachment),
      c ∈ st.conns → c.wsId = w → c.attachment = Option.some a → a.id ≠ "" →
      (st.conns.map (fun cc => cc.wsId)).Nodup → (activeIds st.conns).Nodup →
      (step st (ServerOp.wsClose w)).2 = Output.sends
        (st.conns.filterMap (fun cc =>
          if cc.wsId = w then Option.none
          else openSendTo (OutMsg.peerLeft a.id) Option.none cc)) ∧
      ∀ s ∈ st.conns.filterMap (fun cc =>
          if cc.wsId = w then Option.none
          else openSendTo (OutMsg.peerLeft a.id) Option.none cc), s.dest ≠ w) ∧
    (∀ (st : RoomState) (w : Nat),
      step st (ServerOp.wsError w) = step st (ServerOp.wsClose w)) ∧
    (∀ (st : RoomState) (sender : Conn) (msg : SignalingMessage)
        (freshId genName : String) (a : PeerAttachment),
      sender ∈ st.conns → sender.attachment = Option.some a → a.id ≠ "" →
      (st.conns.map (fun c => c.wsId)).Nodup → (activeIds st.conns).Nodup →
      msg.type = MsgType.nameChanged →
      (webSocketMessage st sender msg freshId genName).2
        = st.conns.filterMap (fun c =>
            if c.wsId = sender.wsId then Option.none
            else openSendTo (OutMsg.nameChanged a.id (msg.data.bind (fun o => o.name)))
              Option.none c) ∧
      ∀ s ∈ (webSocketMessage st sender msg freshId genName).2,
        s.dest ≠ sender.wsId) := by
  refine ⟨?_, ?_, fun st w => rfl, ?_⟩
  · -- join broadcast
    intro st sender msg freshId genName hmem hatt hw hn hfresh hfne htype
    rcases msg with ⟨t, toP, d⟩
    simp only at htype
    subst htype
    obtain ⟨l₁, l₂, hsplit⟩ := List.append_of_mem hmem
    have hne : ∀ c ∈ l₁ ++ l₂, c.wsId ≠ sender.wsId :=
      wsId_ne_of_nodup l₁ l₂ sender (by rw [← hsplit]; exact hw)
    have hact : activeIds st.conns = activeIds l₁ ++ activeIds l₂ := by
      rw [hsplit, activeIds_append, activeIds_cons_none (by simp [entryId, hatt])]
    have hsid' : entryId { sender with attachment := Option.some ⟨freshId, Option.some (joinName d genName), joinDeviceType d, d.bind (fun o => o.browserInfo)⟩ } = Option.some freshId := by
      simp [entryId, hfne]
    have hconns' : setAttachment st.conns sender.wsId
        ⟨freshId, Option.some (joinName d genName), joinDeviceType d,
          d.bind (fun o => o.browserInfo)⟩
        = l₁ ++ { sender with attachment := Option.some ⟨freshId, Option.some (joinName d genName), joinDeviceType d, d.bind (fun o => o.browserInfo)⟩ } :: l₂ := by
      rw [hsplit]
      exact setAttachment_decomp l₁ l₂ sender _ hne
    have hbc : broadcastSends (setAttachment st.conns sender.wsId
          ⟨freshId, Option.some (joinName d genName), joinDeviceType d,
            d.bind (fun o => o.browserInfo)⟩)
        (OutMsg.peerJoined freshId (Option.some (joinName d genName)) (joinDeviceType d)
          (d.bind (fun o => o.browserInfo)))
        (Option.some freshId)
        = st.conns.filterMap (fun c =>
            if c.wsId = sender.wsId then Option.none
            else openSendTo (OutMsg.peerJoined freshId
              (Option.some (joinName d genName)) (joinDeviceType d)
              (d.bind (fun o => o.browserInfo))) Option.none c) := by
      rw [hconns']
      exact broadcast_update_excluded st.conns sender _ l₁ l₂ _ freshId hsplit hne
        hsid' (by rw [← hact]; exact hfresh) (by rw [← hact]; exact hn)
    refine ⟨((getActivePeers (setAttachment st.conns sender.wsId
        ⟨freshId, Option.some (joinName d genName), joinDeviceType d,
          d.bind (fun o => o.browserInfo)⟩)).filter
        (fun e => e.1 ≠ freshId)).map
        (fun e => (⟨e.1, e.2.2.name, e.2.2.deviceType, e.2.2.browserInfo⟩ : PeerInfo)),
      broadcastSends (setAttachment st.conns sender.wsId
          ⟨freshId, Option.some (joinName d genName), joinDeviceType d,
            d.bind (fun o => o.browserInfo)⟩)
        (OutMsg.peerJoined freshId (Option.some (joinName d genName)) (joinDeviceType d)
          (d.bind (fun o => o.browserInfo)))
        (Option.some freshId), ?_, hbc, ?_⟩
    · rfl
    · rw [hbc]
      exact fun s hs => dest_ne_of_mem_excluded st.conns sender.wsId _
        (fun c s' h => openSendTo_dest _ _ c s' h) s hs
  · -- leave broadcast on close
    intro st w c a hcmem hcw hcatt hcid hw hn
    subst hcw
    obtain ⟨l₁, l₂, hsplit⟩ := List.append_of_mem hcmem
    have hne : ∀ cc ∈ l₁ ++ l₂, cc.wsId ≠ c.wsId :=
      wsId_ne_of_nodup l₁ l₂ c (by rw [← hsplit]; exact hw)
    have hset : setClosed st.conns c.wsId = l₁ ++ { c with readyState := false } :: l₂ := by
      rw [hsplit]
      exact setClosed_decomp l₁ l₂ c hne
    have hfind : (setClosed st.conns c.wsId).find? (fun cc => cc.wsId = c.wsId)
        = Option.some { c with readyState := false } := by
      rw [hset, List.find?_append]
      have h1 : l₁.find? (fun cc => cc.wsId = c.wsId) = Option.none :=
        List.find?_eq_none.mpr (fun cc hcc => by
          simp [hne cc (List.mem_append_left _ hcc)])
      rw [h1, List.find?_cons]
      simp
    have hbc := broadcast_closed_none st.conns c l₁ l₂ (OutMsg.peerLeft a.id) hsplit hne hn
    constructor
    · simp only [step, hfind]
      rw [show handleLeave (setClosed st.conns c.wsId) { c with readyState := false }
          = broadcastSends (setClosed st.conns c.wsId) (OutMsg.peerLeft a.id)
            Option.none from by rw [handleLeave]; simp [hcatt, hcid]]
      rw [hset, hbc]
    · exact fun s hs => dest_ne_of_mem_excluded st.conns c.wsId _
        (fun cc s' h => openSendTo_dest _ _ cc s' h) s hs
  · -- name-changed broadcast
    intro st sender msg freshId genName a hmem hatt hid hw hn htype
    rcases msg with ⟨t, toP, d⟩
    simp only at htype
    subst htype
    obtain ⟨l₁, l₂, hsplit⟩ := List.append_of_mem hmem
    have hne : ∀ c ∈ l₁ ++ l₂, c.wsId ≠ sender.wsId :=
      wsId_ne_of_nodup l₁ l₂ sender (by rw [← hsplit]; exact hw)
    have hsid : entryId sender = Option.some a.id := by simp [entryId, hatt, hid]
    have hact : activeIds st.conns = activeIds l₁ ++ a.id :: activeIds l₂ := by
      rw [hsplit, activeIds_append, activeIds_cons_some hsid]
    have hmid := List.nodup_middle.mp (by rw [← hact]; exact hn)
    have hnotin : a.id ∉ activeIds l₁ ++ activeIds l₂ := (List.nodup_cons.mp hmid).1
    have hn2 : (activeIds l₁ ++ activeIds l₂).Nodup := (List.nodup_cons.mp hmid).2
    set A' : PeerAttachment := { a with name := d.bind (fun o => o.name) } with hA'def
    set sender' : Conn := { sender with attachment := Option.some A' } with hS'def
    have hsid' : entryId sender' = Option.some a.id := by
      simp [entryId, hS'def, hA'def, hid]
    have hconns' : setAttachment st.conns sender.wsId A' = l₁ ++ sender' :: l₂ := by
      rw [hsplit]
      exact setAttachment_decomp l₁ l₂ sender A' hne
    have hred : (webSocketMessage st sender ⟨MsgType.nameChanged, toP, d⟩ freshId genName).2
        = broadcastSends (setAttachment st.conns sender.wsId A')
            (OutMsg.nameChanged a.id (d.bind (fun o => o.name))) (Option.some a.id) := by
      show (handleNameChanged st sender ⟨MsgType.nameChanged, toP, d⟩).2 = _
      rw [handleNameChanged]
      simp only [hatt]
      rw [if_neg hid]
    have hbc : broadcastSends (setAttachment st.conns sender.wsId A')
        (OutMsg.nameChanged a.id (d.bind (fun o => o.name))) (Option.some a.id)
        = st.conns.filterMap (fun c =>
            if c.wsId = sender.wsId then Option.none
            else openSendTo (OutMsg.nameChanged a.id (d.bind (fun o => o.name)))
              Option.none c) := by
      rw [hconns']
      exact broadcast_update_excluded st.conns sender sender' l₁ l₂ _ a.id hsplit hne
        hsid' hnotin hn2
    refine ⟨by rw [hred, hbc], ?_⟩
    rw [hred, hbc]
    exact fun s hs => dest_ne_of_mem_excluded st.conns sender.wsId _
      (fun cc s' h => openSendTo_dest _ _ cc s' h) s hs

theorem broadcasts_exclude_subject_witness :
    (∃ (others : List PeerInfo) (bcast : List Send),
      (webSocketMessage
        (RoomState.mk
          [Conn.mk 1 "R" true (Option.some ⟨"pa", Option.some "A", "desktop", Option.none⟩),
           Conn.mk 2 "R" true Option.none]
          Option.none [])
        (Conn.mk 2 "R" true Option.none)
        (SignalingMessage.mk MsgType.join Option.none Option.none) "pf" "G").2
        = ⟨2, OutMsg.joined "pf" "R" others⟩ :: bcast ∧
      bcast =
        [Conn.mk 1 "R" true (Option.some ⟨"pa", Option.some "A", "desktop", Option.none⟩),
         Conn.mk 2 "R" true Option.none].filterMap (fun c =>
          if c.wsId = 2 then Option.none
          else openSendTo (OutMsg.peerJoined "pf"
            (Option.some (joinName Option.none "G")) (joinDeviceType Option.none)
            ((Option.none : Option DataObj).bind (fun o => o.browserInfo))) Option.none c) ∧
      ∀ s ∈ bcast, s.dest ≠ 2) ∧
    ((step
        (RoomState.mk
          [Conn.mk 1 "R" true (Option.some ⟨"pa", Option.some "A", "desktop", Option.none⟩),
           Conn.mk 3 "R" true (Option.some ⟨"pb", Option.some "B", "mobile", Option.none⟩)]
          Option.none [])
        (ServerOp.wsClose 1)).2 = Output.sends
        ([Conn.mk 1 "R" true (Option.some ⟨"pa", Option.some "A", "desktop", Option.none⟩),
          Conn.mk 3 "R" true (Option.some ⟨"pb", Option.some "B", "mobile", Option.none⟩)].filterMap
          (fun cc =>
            if cc.wsId = 1 then Option.none
            else openSendTo (OutMsg.peerLeft "pa") Option.none cc))) ∧
    (step (RoomState.mk [] Option.none []) (ServerOp.wsError 5)
      = step (RoomState.mk [] Option.none []) (ServerOp.wsClose 5)) ∧
    ((webSocketMessage
        (RoomState.mk
          [Conn.mk 1 "R" true (Option.some ⟨"pa", Option.some "A", "desktop", Option.none⟩),
           Conn.mk 3 "R" true (Option.some ⟨"pb", Option.some "B", "mobile", Option.none⟩)]
          Option.none [])
        (Conn.mk 1 "R" true (Option.some ⟨"pa", Option.some "A", "desktop", Option.none⟩))
        (SignalingMessage.mk MsgType.nameChanged Option.none
          (Option.some { name := Option.some "Neo" })) "f" "g").2
      = [Conn.mk 1 "R" true (Option.some ⟨"pa", Option.some "A", "desktop", Option.none⟩),
         Conn.mk 3 "R" true (Option.some ⟨"pb", Option.some "B", "mobile", Option.none⟩)].filterMap
          (fun c =>
            if c.wsId = 1 then Option.none
            else openSendTo (OutMsg.nameChanged "pa"
              ((Option.some { name := Option.some "Neo" } : Option DataObj).bind
                (fun o => o.name))) Option.none c)) := by
  have hmain := broadcasts_exclude_subject
  refine ⟨hmain.1
      (RoomState.mk
        [Conn.mk 1 "R" true (Option.some ⟨"pa", Option.some "A", "desktop", Option.none⟩),
         Conn.mk 2 "R" true Option.none]
        Option.none [])
      (Conn.mk 2 "R" true Option.none)
      (SignalingMessage.mk MsgType.join Option.none Option.none) "pf" "G"
      (by decide) rfl (by decide) (by decide) (by decide) (by decide) rfl,
    (hmain.2.1
      (RoomState.mk
        [Conn.mk 1 "R" true (Option.some ⟨"pa", Option.some "A", "desktop", Option.none⟩),
         Conn.mk 3 "R" true (Option.some ⟨"pb", Option.some "B", "mobile", Option.none⟩)]
        Option.none [])
      1 (Conn.mk 1 "R" true (Option.some ⟨"pa", Option.some "A", "desktop", Option.none⟩))
      ⟨"pa", Option.some "A", "desktop", Option.none⟩
      (by decide) rfl rfl (by decide) (by decide) (by decide)).1,
    hmain.2.2.1 (RoomState.mk [] Option.none []) 5,
    (hmain.2.2.2
      (RoomState.mk
        [Conn.mk 1 "R" true (Option.some ⟨"pa", Option.some "A", "desktop", Option.none⟩),
         Conn.mk 3 "R" true (Option.some ⟨"pb", Option.some "B", "mobile", Option.none⟩)]
        Option.none [])
      (Conn.mk 1 "R" true (Option.some ⟨"pa", Option.some "A", "desktop", Option.none⟩))
      (SignalingMessage.mk MsgType.nameChanged Option.none
        (Option.some { name := Option.some "Neo" })) "f" "g"
      ⟨"pa", Option.some "A", "desktop", Option.none⟩
      (by decide) rfl (by decide) (by decide) (by decide) rfl).1⟩

end CloudDrop
